import Mathlib

/-!
# MapDrawer (OA-SLAM, derived from ORB-SLAM2)

A shallow embedding of `src/MapDrawer.cc` and theorems about it.

Conventions of the embedding.

* Scalars (`float`, `double`, `GLfloat`) are elements of an arbitrary field `α`:
  arithmetic is exact, rounding, infinities and NaN are not modelled.
* Pointers (`MapPoint*`, `KeyFrame*`) are addresses (`Nat`); the objects they
  point to are read through the snapshot `Map`.
* A drawing routine returns the list of OpenGL calls it issues, in order.
  The loops that emit vertices are first written as the list of entities whose
  vertex is emitted (so that a vertex can be traced back to the point or the
  keyframe pair that produced it) and then mapped to `glVertex3f` calls.
* An OpenCV assertion failure (an exception) is `none`, and so is an access
  outside the rows of an Eigen matrix: the routine has no result.
-/

namespace ORB_SLAM2

/-! ## Collaborators: OpenCV, OpenGL, pangolin, the standard library -/

/-- The address held by a `MapPoint*`. -/
abbrev MapPointPtr := Nat

/-- The address held by a `KeyFrame*`. -/
abbrev KeyFramePtr := Nat

/-- A two-dimensional single-channel `cv::Mat`: its shape and its entries
(row, column). Entries outside the shape are never meaningful. -/
structure Mat (α : Type) where
  rows : Nat
  cols : Nat
  data : Nat → Nat → α

/-- `cv::Scalar`: four channels. -/
abbrev Scalar (α : Type) := Fin 4 → α

/-- `pangolin::OpenGlMatrix`: the array `m[16]`, column-major. -/
structure OpenGlMatrix (α : Type) where
  m : Nat → α

/-- Primitive modes used by the drawer. -/
inductive GLenum where
  | GL_POINTS
  | GL_LINES
  | GL_LINE_STRIP
  deriving DecidableEq, Repr

/-- The OpenGL calls issued by the drawer. -/
inductive GLCmd (α : Type) where
  | glPointSize (size : α)
  | glLineWidth (width : α)
  | glColor3f (r g b : α)
  | glColor4f (r g b a : α)
  | glBegin (mode : GLenum)
  | glVertex3f (x y z : α)
  | glEnd
  | glPushMatrix
  | glMultMatrixf (m : List α)
  | glMultMatrixd (m : List α)
  | glPopMatrix
  deriving DecidableEq

section Embedding

variable {α : Type}

/-- The call `cv::Mat::empty()`: no element. -/
def Mat.empty (A : Mat α) : Bool := A.rows == 0 || A.cols == 0

/-- The call `cv::Mat::rowRange(s, e)`; fails unless `s ≤ e ≤ rows`. -/
def Mat.rowRange (A : Mat α) (s e : Nat) : Option (Mat α) :=
  if s ≤ e ∧ e ≤ A.rows then some ⟨e - s, A.cols, fun i j => A.data (s + i) j⟩ else none

/-- The call `cv::Mat::colRange(s, e)`; fails unless `s ≤ e ≤ cols`. -/
def Mat.colRange (A : Mat α) (s e : Nat) : Option (Mat α) :=
  if s ≤ e ∧ e ≤ A.cols then some ⟨A.rows, e - s, fun i j => A.data i (s + j)⟩ else none

/-- The call `cv::Mat::col(x)`; fails unless `x < cols`. -/
def Mat.col (A : Mat α) (x : Nat) : Option (Mat α) :=
  if x < A.cols then some ⟨A.rows, 1, fun i _ => A.data i x⟩ else none

/-- The call `cv::Mat::t()`. -/
def Mat.t (A : Mat α) : Mat α := ⟨A.cols, A.rows, fun i j => A.data j i⟩

/-- The call `cv::Mat::clone()`. -/
def Mat.clone (A : Mat α) : Mat α := ⟨A.rows, A.cols, A.data⟩

/-- The two-index accessor `A.at<float>(i, j)`. -/
def Mat.at2 (A : Mat α) (i j : Nat) : α := A.data i j

/-- The one-index accessor `A.at<float>(i)`: the i-th element in row-major
order (row `i` of a column vector, column `i` of a row vector). -/
def Mat.at1 (A : Mat α) (i : Nat) : α := A.data (i / A.cols) (i % A.cols)

/-- The pointer `A.ptr<GLfloat>(0)` as read by OpenGL: the first 16 elements
in row-major order. -/
def Mat.ptr16 (A : Mat α) : List α :=
  (List.range 16).map (fun k => A.data (k / A.cols) (k % A.cols))

/-- Unary minus on a `cv::Mat`. -/
def Mat.neg [Neg α] (A : Mat α) : Mat α := ⟨A.rows, A.cols, fun i j => - A.data i j⟩

/-- The matrix product of two `cv::Mat`; fails unless the inner sizes agree. -/
def Mat.mul [Add α] [Mul α] [Zero α] (A B : Mat α) : Option (Mat α) :=
  if A.cols = B.rows then
    some ⟨A.rows, B.cols,
      fun i j => (List.range A.cols).foldl (fun acc k => acc + A.data i k * B.data k j) 0⟩
  else none

/-- The default-constructed `cv::Mat()`. -/
def Mat.default [Zero α] : Mat α := ⟨0, 0, fun _ _ => 0⟩

/-- The assignment `M.m[i] = v`. -/
def OpenGlMatrix.set (M : OpenGlMatrix α) (i : Nat) (v : α) : OpenGlMatrix α :=
  ⟨fun j => if j = i then v else M.m j⟩

/-- The call `pangolin::OpenGlMatrix::SetIdentity()`. -/
def OpenGlMatrix.SetIdentity [Zero α] [One α] (M : OpenGlMatrix α) : OpenGlMatrix α :=
  ((((((((((((((((M.set 0 1).set 1 0).set 2 0).set 3 0).set 4 0).set 5 1).set 6 0).set 7 0).set
    8 0).set 9 0).set 10 1).set 11 0).set 12 0).set 13 0).set 14 0).set 15 1)

/-- Insertion into a `std::set` of addresses, kept in increasing order
without duplicates. -/
def StdSet.insert (x : Nat) : List Nat → List Nat
  | [] => [x]
  | y :: ys =>
    if x < y then x :: y :: ys
    else if x = y then y :: ys
    else y :: StdSet.insert x ys

/-- The range constructor `std::set<T*>(first, last)`; the list is the
iteration order of the set. -/
def StdSet.ofList (l : List Nat) : List Nat :=
  l.foldl (fun s x => StdSet.insert x s) []

/-- The results of a sequence of steps, in order; `none` as soon as one step
does not complete. -/
def allSome {β : Type} : List (Option β) → Option (List β)
  | [] => some []
  | none :: _ => none
  | some b :: rest => (allSome rest).map (fun r => b :: r)

/-! ## Collaborators: the map and its entities -/

/-- What the drawer reads of a `MapPoint`. -/
structure MapPoint (α : Type) where
  isBad : Bool
  GetWorldPos : Mat α

/-- What the drawer reads of a `KeyFrame`. -/
structure KeyFrame (α : Type) where
  mnId : Nat
  GetPoseInverse : Mat α
  GetCameraCenter : Mat α
  GetCovisiblesByWeight : Int → List KeyFramePtr
  GetParent : Option KeyFramePtr
  GetLoopEdges : List KeyFramePtr

/-- What the drawer reads of an `ObjectTrack`. -/
structure ObjectTrack (α : Type) where
  GetCategoryId : Nat
  GetColor : Scalar α
  GetFilteredAssociatedMapPoints : Int → List (MapPointPtr × Int)

/-- What the drawer reads of an `Ellipsoid`; the generated point cloud is a
matrix with `GeneratePointCloudRows` rows and 3 columns. -/
structure Ellipsoid (α : Type) where
  GetCenter : Fin 3 → α
  GetAxes : Fin 3 → α
  GetOrientation : Matrix (Fin 3) (Fin 3) α
  GeneratePointCloudRows : Nat
  GeneratePointCloud : Nat → Fin 3 → α

/-- What the drawer reads of a `MapObject`. -/
structure MapObject (α : Type) where
  GetTrack : ObjectTrack α
  GetEllipsoid : Ellipsoid α

/-- A snapshot of the `Map`: its collections and the objects behind the
pointers they hold. -/
structure Map (α : Type) where
  GetAllMapPoints : List MapPointPtr
  GetReferenceMapPoints : List MapPointPtr
  GetAllKeyFrames : List KeyFramePtr
  GetAllMapObjects : List (MapObject α)
  mapPoint : MapPointPtr → MapPoint α
  keyFrame : KeyFramePtr → KeyFrame α

/-- The state of a `MapDrawer`. -/
structure MapDrawer (α : Type) where
  mpMap : Map α
  mKeyFrameSize : α
  mKeyFrameLineWidth : α
  mGraphLineWidth : α
  mPointSize : α
  mCameraSize : α
  mCameraLineWidth : α
  mCameraPose : Mat α
  use_category_cols_ : Bool
  display_3d_bbox_ : Bool

end Embedding

/-! ## The drawer -/

section Drawer

variable {α : Type} [Field α]

open GLCmd GLenum

/-- The constructor `MapDrawer::MapDrawer`: the settings file is read through
`fSettings`; `display_3d_bbox_` is not set by the constructor. -/
def MapDrawer.new (pMap : Map α) (fSettings : String → α) (display_3d_bbox_ : Bool) :
    MapDrawer α :=
  { mpMap := pMap
    mKeyFrameSize := fSettings "Viewer.KeyFrameSize"
    mKeyFrameLineWidth := fSettings "Viewer.KeyFrameLineWidth"
    mGraphLineWidth := fSettings "Viewer.GraphLineWidth"
    mPointSize := 2
    mCameraSize := fSettings "Viewer.CameraSize"
    mCameraLineWidth := fSettings "Viewer.CameraLineWidth"
    mCameraPose := Mat.default
    use_category_cols_ := false
    display_3d_bbox_ := display_3d_bbox_ }

/-- The call `glVertex3f(pos.at<float>(0), pos.at<float>(1), pos.at<float>(2))`. -/
def vertexAt (pos : Mat α) : GLCmd α :=
  glVertex3f (pos.at1 0) (pos.at1 1) (pos.at1 2)

/-! ### DrawMapPoints (lines 70-122) -/

/-- Lines 80-89: the set `associated`, as the list of its members. -/
def DrawMapPoints.associated (d : MapDrawer α) (ignore_objects_points : Bool) :
    List MapPointPtr :=
  if ignore_objects_points then
    d.mpMap.GetAllMapObjects.foldl
      (fun acc obj =>
        (obj.GetTrack.GetFilteredAssociatedMapPoints 10).foldl
          (fun acc pt_cnt => acc.insert pt_cnt.1) acc)
      []
  else []

/-- Lines 95-103: the points whose position the first loop emits, in order;
nothing when the routine returns at line 78. -/
def DrawMapPoints.firstPass (d : MapDrawer α) (ignore_objects_points : Bool) :
    List MapPointPtr :=
  let vpMPs := d.mpMap.GetAllMapPoints
  let spRefMPs := StdSet.ofList d.mpMap.GetReferenceMapPoints
  if vpMPs.isEmpty then []
  else
    let associated := DrawMapPoints.associated d ignore_objects_points
    vpMPs.filter (fun p =>
      !((d.mpMap.mapPoint p).isBad || decide (0 < spRefMPs.count p))
        && !decide (0 < associated.count p))

/-- Lines 110-119: the points whose position the second loop emits, in the
iteration order of the set; nothing when the routine returns at line 78. -/
def DrawMapPoints.secondPass (d : MapDrawer α) (ignore_objects_points : Bool) :
    List MapPointPtr :=
  let vpMPs := d.mpMap.GetAllMapPoints
  let spRefMPs := StdSet.ofList d.mpMap.GetReferenceMapPoints
  if vpMPs.isEmpty then []
  else
    let associated := DrawMapPoints.associated d ignore_objects_points
    spRefMPs.filter (fun p =>
      !(d.mpMap.mapPoint p).isBad && !decide (0 < associated.count p))

/-- The routine `MapDrawer::DrawMapPoints(size, ignore_objects_points)`. -/
def DrawMapPoints (d : MapDrawer α) (size : α) (ignore_objects_points : Bool) :
    List (GLCmd α) :=
  if d.mpMap.GetAllMapPoints.isEmpty then []
  else
    [glPointSize size, glBegin GL_POINTS, glColor3f 0 0 0]
      ++ (DrawMapPoints.firstPass d ignore_objects_points).map
          (fun p => vertexAt (d.mpMap.mapPoint p).GetWorldPos)
      ++ [glEnd]
      ++ [glPointSize size, glBegin GL_POINTS, glColor3f 1 0 0]
      ++ (DrawMapPoints.secondPass d ignore_objects_points).map
          (fun p => vertexAt (d.mpMap.mapPoint p).GetWorldPos)
      ++ [glEnd]

/-! ### DrawMapObjectsPoints (lines 124-159) -/

/-- Lines 149-156: the points whose position is emitted for one object. -/
def DrawMapObjectsPoints.pointsOf (d : MapDrawer α) (obj : MapObject α) : List MapPointPtr :=
  ((obj.GetTrack.GetFilteredAssociatedMapPoints 10).map (fun pt_cnt => pt_cnt.1)).filter
    (fun pt => !(d.mpMap.mapPoint pt).isBad)

/-- The points whose position is emitted by one call of the routine, over all
objects; nothing when the routine returns at line 132. -/
def DrawMapObjectsPoints.pass (d : MapDrawer α) : List MapPointPtr :=
  if d.mpMap.GetAllMapPoints.isEmpty then []
  else d.mpMap.GetAllMapObjects.flatMap (DrawMapObjectsPoints.pointsOf d)

/-- The routine `MapDrawer::DrawMapObjectsPoints(size)`; `color_manager` is the
table held by `CategoryColorsManager::GetInstance()`. -/
def DrawMapObjectsPoints (d : MapDrawer α) (color_manager : Nat → Scalar α) (size : α) :
    List (GLCmd α) :=
  if d.mpMap.GetAllMapPoints.isEmpty then []
  else
    d.mpMap.GetAllMapObjects.flatMap (fun obj =>
      let c : Scalar α :=
        if d.use_category_cols_ then color_manager obj.GetTrack.GetCategoryId
        else obj.GetTrack.GetColor
      [glColor3f (c 2 / 255) (c 1 / 255) (c 0 / 255), glPointSize size, glBegin GL_POINTS]
        ++ (DrawMapObjectsPoints.pointsOf d obj).map
            (fun pt => vertexAt (d.mpMap.mapPoint pt).GetWorldPos)
        ++ [glEnd])

/-! ### DrawKeyFrames (lines 179-274) -/

/-- Which of the three overlaid graphs a segment belongs to. -/
inductive EdgeKind where
  | covisibility
  | spanningTree
  | loop
  deriving DecidableEq, Repr

/-- A segment of the graph pass, by the keyframes that produced it: the
keyframe `kf` being visited and the keyframe `other` it is joined to. -/
structure GraphSegment where
  kind : EdgeKind
  kf : KeyFramePtr
  other : KeyFramePtr
  deriving DecidableEq, Repr

/-- Lines 236-269: the segments emitted while visiting keyframe `pKF`. -/
def DrawKeyFrames.segmentsOf (mp : Map α) (pKF : KeyFramePtr) : List GraphSegment :=
  let vCovKFs := (mp.keyFrame pKF).GetCovisiblesByWeight 100
  let sLoopKFs := (mp.keyFrame pKF).GetLoopEdges
  (if !vCovKFs.isEmpty then
      (vCovKFs.filter
          (fun vit => !decide ((mp.keyFrame vit).mnId < (mp.keyFrame pKF).mnId))).map
        (fun vit => GraphSegment.mk EdgeKind.covisibility pKF vit)
    else [])
    ++ (match (mp.keyFrame pKF).GetParent with
        | some pParent => [GraphSegment.mk EdgeKind.spanningTree pKF pParent]
        | none => [])
    ++ (sLoopKFs.filter
          (fun sit => !decide ((mp.keyFrame sit).mnId < (mp.keyFrame pKF).mnId))).map
        (fun sit => GraphSegment.mk EdgeKind.loop pKF sit)

/-- Lines 234-270: the segments of the graph pass over the keyframe list. -/
def DrawKeyFrames.segments (mp : Map α) (vpKFs : List KeyFramePtr) : List GraphSegment :=
  vpKFs.flatMap (DrawKeyFrames.segmentsOf mp)

/-- The two `glVertex3f` calls of one segment: the two camera centres. -/
def DrawKeyFrames.segmentVertices (mp : Map α) (s : GraphSegment) : List (GLCmd α) :=
  [vertexAt (mp.keyFrame s.kf).GetCameraCenter, vertexAt (mp.keyFrame s.other).GetCameraCenter]

/-- The routine `MapDrawer::DrawKeyFrames(bDrawKF, bDrawGraph)`. -/
def DrawKeyFrames (d : MapDrawer α) (bDrawKF bDrawGraph : Bool) : List (GLCmd α) :=
  let w := d.mKeyFrameSize
  let h := w * 0.75
  let z := w * 0.6
  let vpKFs := d.mpMap.GetAllKeyFrames
  (if bDrawKF then
      vpKFs.flatMap (fun pKF =>
        let Twc := (d.mpMap.keyFrame pKF).GetPoseInverse.t
        [glPushMatrix, glMultMatrixf Twc.ptr16,
         glLineWidth d.mKeyFrameLineWidth, glColor3f 0 0 1, glBegin GL_LINES,
         glVertex3f 0 0 0, glVertex3f w h z,
         glVertex3f 0 0 0, glVertex3f w (-h) z,
         glVertex3f 0 0 0, glVertex3f (-w) (-h) z,
         glVertex3f 0 0 0, glVertex3f (-w) h z,
         glVertex3f w h z, glVertex3f w (-h) z,
         glVertex3f (-w) h z, glVertex3f (-w) (-h) z,
         glVertex3f (-w) h z, glVertex3f w h z,
         glVertex3f (-w) (-h) z, glVertex3f w (-h) z,
         glEnd, glPopMatrix])
    else [])
    ++ (if bDrawGraph then
          [glLineWidth d.mGraphLineWidth, glColor4f 0 1 0 0.6, glBegin GL_LINES]
            ++ (DrawKeyFrames.segments d.mpMap vpKFs).flatMap
                (DrawKeyFrames.segmentVertices d.mpMap)
            ++ [glEnd]
        else [])

/-! ### The camera pose (lines 319-359) -/

/-- The routine `MapDrawer::SetCurrentCameraPose(Tcw)`. -/
def SetCurrentCameraPose (d : MapDrawer α) (Tcw : Mat α) : MapDrawer α :=
  { d with mCameraPose := Tcw.clone }

/-- The routine `MapDrawer::GetCurrentOpenGLCameraMatrix(M)`: the value of `M`
on return, `none` when OpenCV throws. -/
def GetCurrentOpenGLCameraMatrix (d : MapDrawer α) (M : OpenGlMatrix α) :
    Option (OpenGlMatrix α) :=
  if !d.mCameraPose.empty then do
    let Rwc := (← (← d.mCameraPose.rowRange 0 3).colRange 0 3).t
    let twc ← Rwc.neg.mul (← (← d.mCameraPose.rowRange 0 3).col 3)
    let M := M.set 0 (Rwc.at2 0 0)
    let M := M.set 1 (Rwc.at2 1 0)
    let M := M.set 2 (Rwc.at2 2 0)
    let M := M.set 3 0
    let M := M.set 4 (Rwc.at2 0 1)
    let M := M.set 5 (Rwc.at2 1 1)
    let M := M.set 6 (Rwc.at2 2 1)
    let M := M.set 7 0
    let M := M.set 8 (Rwc.at2 0 2)
    let M := M.set 9 (Rwc.at2 1 2)
    let M := M.set 10 (Rwc.at2 2 2)
    let M := M.set 11 0
    let M := M.set 12 (twc.at1 0)
    let M := M.set 13 (twc.at1 1)
    let M := M.set 14 (twc.at1 2)
    let M := M.set 15 1
    pure M
  else
    some M.SetIdentity

/-! ### DrawMapObjects (lines 362-428) -/

/-- Line 388: the call `glVertex3f(pts(r, 0), pts(r, 1), pts(r, 2))` on a point
cloud with `rows` rows; the access is out of bounds, and the call is not made,
when `r` is not a row of the cloud. -/
def DrawMapObjects.cloudVertex (rows : Nat) (pts : Nat → Fin 3 → α) (r : Nat) :
    Option (GLCmd α) :=
  if r < rows then some (glVertex3f (pts r 0) (pts r 1) (pts r 2)) else none

/-- Lines 383-391: the line strips of the ellipsoid branch, from row `i` on;
`none` when a row outside the cloud is accessed. The inner loop reads 50 rows
whatever the number of rows. -/
def DrawMapObjects.strips (rows : Nat) (pts : Nat → Fin 3 → α) (i : Nat) :
    Option (List (GLCmd α)) :=
  if i < rows then
    match allSome ((List.range 50).map (fun k => DrawMapObjects.cloudVertex rows pts (i + k))),
        DrawMapObjects.strips rows pts (i + 50) with
    | some vs, some rest => some ([glBegin GL_LINE_STRIP] ++ vs ++ [glEnd] ++ rest)
    | _, _ => none
  else some []
termination_by rows - i

/-- Lines 396-404: the matrix `pts` of the bounding-box branch. -/
def DrawMapObjects.pts (axes : Fin 3 → α) : Matrix (Fin 8) (Fin 3) α :=
  !![-axes 0, -axes 1, -axes 2;
      axes 0, -axes 1, -axes 2;
      axes 0,  axes 1, -axes 2;
     -axes 0,  axes 1, -axes 2;
     -axes 0, -axes 1,  axes 2;
      axes 0, -axes 1,  axes 2;
      axes 0,  axes 1,  axes 2;
     -axes 0,  axes 1,  axes 2]

/-- Lines 393-406: the matrix `obb` of the bounding-box branch. -/
def DrawMapObjects.obb (ell : Ellipsoid α) : Matrix (Fin 8) (Fin 3) α :=
  let center := ell.GetCenter
  let axes := ell.GetAxes
  let R := ell.GetOrientation
  let obb := (R * (DrawMapObjects.pts axes).transpose).transpose
  obb + Matrix.of (fun _ j => center j)

/-- Lines 408-425: the line strip of the bounding-box branch. -/
def DrawMapObjects.box (obb : Matrix (Fin 8) (Fin 3) α) : List (GLCmd α) :=
  [glBegin GL_LINE_STRIP,
   glVertex3f (obb 0 0) (obb 0 1) (obb 0 2),
   glVertex3f (obb 1 0) (obb 1 1) (obb 1 2),
   glVertex3f (obb 2 0) (obb 2 1) (obb 2 2),
   glVertex3f (obb 3 0) (obb 3 1) (obb 3 2),
   glVertex3f (obb 0 0) (obb 0 1) (obb 0 2),
   glVertex3f (obb 4 0) (obb 4 1) (obb 4 2),
   glVertex3f (obb 5 0) (obb 5 1) (obb 5 2),
   glVertex3f (obb 1 0) (obb 1 1) (obb 1 2),
   glVertex3f (obb 5 0) (obb 5 1) (obb 5 2),
   glVertex3f (obb 6 0) (obb 6 1) (obb 6 2),
   glVertex3f (obb 2 0) (obb 2 1) (obb 2 2),
   glVertex3f (obb 6 0) (obb 6 1) (obb 6 2),
   glVertex3f (obb 7 0) (obb 7 1) (obb 7 2),
   glVertex3f (obb 3 0) (obb 3 1) (obb 3 2),
   glVertex3f (obb 7 0) (obb 7 1) (obb 7 2),
   glVertex3f (obb 4 0) (obb 4 1) (obb 4 2),
   glEnd]

/-- The routine `MapDrawer::DrawMapObjects()`; `color_manager` is the table
held by `CategoryColorsManager::GetInstance()`. The result is `none` when the
ellipsoid branch accesses a row outside a point cloud. -/
def DrawMapObjects (d : MapDrawer α) (color_manager : Nat → Scalar α) :
    Option (List (GLCmd α)) :=
  (allSome (d.mpMap.GetAllMapObjects.map (fun obj =>
      let c : Scalar α :=
        if d.use_category_cols_ then color_manager obj.GetTrack.GetCategoryId
        else obj.GetTrack.GetColor
      let ell := obj.GetEllipsoid
      (if !d.display_3d_bbox_ then
          DrawMapObjects.strips ell.GeneratePointCloudRows ell.GeneratePointCloud 0
        else
          some (DrawMapObjects.box (DrawMapObjects.obb ell))).map
        (fun geometry => [glColor3f (c 2 / 255) (c 1 / 255) (c 0 / 255)] ++ geometry)))).map
    (fun calls => [glPointSize d.mPointSize, glLineWidth 2] ++ calls.flatten)

/-- The routine `MapDrawer::DrawDistanceEstimation(depth, Tcw)`. The conversion
helper `cvToEigenMatrix<double, float, 4, 4>` is declared outside this file
and is taken as a parameter. -/
def DrawDistanceEstimation (cvToEigenMatrix : Mat α → Matrix (Fin 4) (Fin 4) α)
    (depth : α) (Tcw : Mat α) : List (GLCmd α) :=
  if Tcw.cols ≠ 4 then []
  else
    let T := cvToEigenMatrix Tcw
    let R : Matrix (Fin 3) (Fin 3) α := T.submatrix Fin.castSucc Fin.castSucc
    let t : Fin 3 → α := fun i => T (Fin.castSucc i) 3
    let o := R.transpose
    let p : Fin 3 → α := Matrix.mulVec (-o) t
    let e : Fin 3 → α := p + depth • (fun i => o i 2)
    [glColor3f 0 0 1, glBegin GL_LINE_STRIP,
     glVertex3f (p 0) (p 1) (p 2),
     glVertex3f (e 0) (e 1) (e 2),
     glEnd]

/-! ### DrawCurrentCamera (lines 276-316) -/

/-- The routine `MapDrawer::DrawCurrentCamera(Twc)`; `HAVE_GLES` is the
compile-time switch of lines 284-288. -/
def DrawCurrentCamera (d : MapDrawer α) (HAVE_GLES : Bool) (Twc : OpenGlMatrix α) :
    List (GLCmd α) :=
  let w := d.mCameraSize
  let h := w * 0.75
  let z := w * 0.6
  [glPushMatrix,
   (if HAVE_GLES then glMultMatrixf ((List.range 16).map Twc.m)
    else glMultMatrixd ((List.range 16).map Twc.m)),
   glLineWidth d.mCameraLineWidth, glColor3f 0 1 0, glBegin GL_LINES,
   glVertex3f 0 0 0, glVertex3f w h z,
   glVertex3f 0 0 0, glVertex3f w (-h) z,
   glVertex3f 0 0 0, glVertex3f (-w) (-h) z,
   glVertex3f 0 0 0, glVertex3f (-w) h z,
   glVertex3f w h z, glVertex3f w (-h) z,
   glVertex3f (-w) h z, glVertex3f (-w) (-h) z,
   glVertex3f (-w) h z, glVertex3f w h z,
   glVertex3f (-w) (-h) z, glVertex3f w (-h) z,
   glEnd, glPopMatrix]

/-! ### The vocabulary of the specification -/

/-- The exclusion set in the words of the specification: when exclusion is
enabled, the points returned by the threshold-10 association query of some
object of the map; empty otherwise. -/
def inExclusionSet (d : MapDrawer α) (excludeObjectPoints : Bool) (p : MapPointPtr) : Bool :=
  excludeObjectPoints &&
    d.mpMap.GetAllMapObjects.any (fun obj =>
      (obj.GetTrack.GetFilteredAssociatedMapPoints 10).any (fun pt_cnt => pt_cnt.1 == p))

/-- The first pass in the words of the specification: the entries of the
all-points list that are not bad, not reference points and not excluded. -/
def otherPointsPass (d : MapDrawer α) (excludeObjectPoints : Bool) : List MapPointPtr :=
  d.mpMap.GetAllMapPoints.filter (fun p =>
    !(d.mpMap.mapPoint p).isBad && !decide (p ∈ d.mpMap.GetReferenceMapPoints)
      && !inExclusionSet d excludeObjectPoints p)

/-- The 16-element identity matrix: 1 at indices 0, 5, 10, 15 and 0 at the
other indices below 16. -/
def OpenGlMatrix.IsIdentity (M : OpenGlMatrix α) : Prop :=
  ∀ i < 16, M.m i = if i % 5 = 0 then 1 else 0

/-- The product of the column-major 4x4 matrix `M` with the homogeneous vector
`v`, component `r`. -/
def OpenGlMatrix.apply (M : OpenGlMatrix α) (v : Nat → α) (r : Nat) : α :=
  M.m r * v 0 + M.m (4 + r) * v 1 + M.m (8 + r) * v 2 + M.m (12 + r) * v 3

/-- The array `M.m` read as a 4x4 column-major matrix. -/
def OpenGlMatrix.toMatrix (M : OpenGlMatrix α) : Matrix (Fin 4) (Fin 4) α :=
  Matrix.of (fun r c => M.m (4 * c.val + r.val))

/-- The entries of a pose read as a 4x4 matrix. -/
def Mat.toMatrix4 (T : Mat α) : Matrix (Fin 4) (Fin 4) α :=
  Matrix.of (fun i j => T.data i.val j.val)

/-- The rotation block `R` of a pose: its top-left 3x3 entries. -/
def Mat.rotation (T : Mat α) : Matrix (Fin 3) (Fin 3) α :=
  Matrix.of (fun i j => T.data i.val j.val)

/-- The translation `t` of a pose: rows 0..2 of column 3. -/
def Mat.translation (T : Mat α) : Fin 3 → α :=
  fun i => T.data i.val 3

/-- The camera centre `-Rᵀ t` of a pose. -/
def Mat.cameraCentre (T : Mat α) : Fin 3 → α :=
  -(Matrix.mulVec (Matrix.transpose T.rotation) T.translation)

/-- The matrix `cv::Mat::eye(4, 4, CV_32F)`. -/
def Mat.eye4 : Mat α := ⟨4, 4, fun i j => if i = j then 1 else 0⟩

/-- The sign patterns `s_0 .. s_7` of the bounding-box corners. -/
def boxSigns : Fin 8 → Fin 3 → Int :=
  ![![-1, -1, -1], ![1, -1, -1], ![1, 1, -1], ![-1, 1, -1],
    ![-1, -1, 1], ![1, -1, 1], ![1, 1, 1], ![-1, 1, 1]]

/-- The corner `c + R * (s_i . a)` of the oriented bounding box. -/
def boxCorner (ell : Ellipsoid α) (i : Fin 8) : Fin 3 → α :=
  fun j => ell.GetCenter j
    + Matrix.mulVec ell.GetOrientation (fun k => (boxSigns i k : α) * ell.GetAxes k) j

/-- The reference traversal of the corners: bottom 0-1-2-3-0, then
0-4-5-1-5-6-2-6-7-3-7-4. -/
def boxTraversal : List (Fin 8) := [0, 1, 2, 3, 0, 4, 5, 1, 5, 6, 2, 6, 7, 3, 7, 4]

/-- The consecutive pairs of a polyline. -/
def consecutivePairs {β : Type} (l : List β) : List (β × β) := l.zip l.tail

/-- The distinct undirected edges of a polyline: its consecutive pairs, a
pair being dropped when it or its reverse was met before. -/
def undirectedEdges {β : Type} [DecidableEq β] (l : List β) : List (β × β) :=
  (consecutivePairs l).foldl
    (fun acc e => if e ∈ acc ∨ e.swap ∈ acc then acc else acc ++ [e]) []

/-- The number of coordinates in which two sign patterns differ. -/
def signDifference (i j : Fin 8) : Nat :=
  ((List.finRange 3).filter (fun k => boxSigns i k ≠ boxSigns j k)).length

/-- The number of segments of one kind produced by the keyframe pair
`A`, `B`, in either direction. -/
def segmentsBetween (kind : EdgeKind) (A B : KeyFramePtr) (segs : List GraphSegment) : Nat :=
  segs.countP (fun s =>
    decide (s.kind = kind)
      && (decide (s.kf = A ∧ s.other = B) || decide (s.kf = B ∧ s.other = A)))

/-- The coordinates given to the `glVertex3f` calls of a call list, in order. -/
def vertices : List (GLCmd α) → List (α × α × α)
  | [] => []
  | glVertex3f x y z :: cs => (x, y, z) :: vertices cs
  | _ :: cs => vertices cs

/-- The number of occurrences of `x` in a list. -/
def occurrences {β : Type} [DecidableEq β] (x : β) (l : List β) : Nat :=
  (l.filter (fun v => decide (v = x))).length

/-- A call list without its `glColor3f` calls. -/
def withoutColours : List (GLCmd α) → List (GLCmd α)
  | [] => []
  | glColor3f _ _ _ :: cs => withoutColours cs
  | c :: cs => c :: withoutColours cs

/-- The colour of the specification: the table entry of the category when
category colours are used, the colour of the object otherwise, channels
reversed and divided by 255. -/
def Resolve (color_manager : Nat → Scalar α) (obj : MapObject α) (useCategoryColor : Bool) :
    α × α × α :=
  let c : Scalar α :=
    if useCategoryColor then color_manager obj.GetTrack.GetCategoryId else obj.GetTrack.GetColor
  (c 2 / 255, c 1 / 255, c 0 / 255)

/-- The `glVertex3f` call of a point. -/
def vertexCmd (v : α × α × α) : GLCmd α := glVertex3f v.1 v.2.1 v.2.2

/-- The `glColor3f` call of a colour. -/
def colourCmd (c : α × α × α) : GLCmd α := glColor3f c.1 c.2.1 c.2.2

/-- A matrix that holds a 3D point: 3 rows, 1 column. -/
def Mat.IsPoint (A : Mat α) : Prop := A.rows = 3 ∧ A.cols = 1

/-- The point batch of one object in the words of the specification: its
resolved colour, then the positions (x, y, z) of the points of its
threshold-10 association query that are not bad, in query order. -/
def objectPointBatch (d : MapDrawer α) (color_manager : Nat → Scalar α) (size : α)
    (obj : MapObject α) : List (GLCmd α) :=
  [colourCmd (Resolve color_manager obj d.use_category_cols_), glPointSize size,
    glBegin GL_POINTS]
    ++ ((obj.GetTrack.GetFilteredAssociatedMapPoints 10).filter
          (fun pt_cnt => !(d.mpMap.mapPoint pt_cnt.1).isBad)).map
        (fun pt_cnt =>
          glVertex3f ((d.mpMap.mapPoint pt_cnt.1).GetWorldPos.data 0 0)
            ((d.mpMap.mapPoint pt_cnt.1).GetWorldPos.data 1 0)
            ((d.mpMap.mapPoint pt_cnt.1).GetWorldPos.data 2 0))
    ++ [glEnd]

/-- The coordinates of a 3-vector. -/
def point3 (v : Fin 3 → α) : α × α × α := (v 0, v 1, v 2)

/-- The start `p = -Rᵀ t` of the distance segment of the specification. -/
def segmentStart (R : Matrix (Fin 3) (Fin 3) α) (t : Fin 3 → α) : Fin 3 → α :=
  -(Matrix.mulVec (Matrix.transpose R) t)

/-- The end `e = p + depth * (third column of Rᵀ)` of the distance segment of
the specification. -/
def segmentEnd (R : Matrix (Fin 3) (Fin 3) α) (t : Fin 3 → α) (depth : α) : Fin 3 → α :=
  segmentStart R t + depth • (fun i => Matrix.transpose R i 2)

/-- A vertex of the frustum: the apex (`none`) or the base corner with the
given signs of its x and y coordinates (`true` is positive). -/
abbrev FrustumVertex := Option (Bool × Bool)

/-- The coordinates of a frustum vertex for size `w`: the apex is the origin,
the base corners are `(±w, ±h, z)` with `h = 0.75 w` and `z = 0.6 w`. -/
def frustumPoint (w : α) : FrustumVertex → α × α × α
  | none => (0, 0, 0)
  | some (sx, sy) =>
    ((if sx then w else -w), (if sy then 0.75 * w else -(0.75 * w)), 0.6 * w)

/-- The 8 segments of the frustum of the specification, in order: the apex to
each base corner, then the four sides of the base. -/
def frustumSegments : List (FrustumVertex × FrustumVertex) :=
  [(none, some (true, true)), (none, some (true, false)),
   (none, some (false, false)), (none, some (false, true)),
   (some (true, true), some (true, false)), (some (false, true), some (false, false)),
   (some (false, true), some (true, true)), (some (false, false), some (true, false))]

/-- The 16-vertex sequence `F(w)`. -/
def frustumVertices (w : α) : List (α × α × α) :=
  frustumSegments.flatMap (fun s => [frustumPoint w s.1, frustumPoint w s.2])

/-- Two base corners are the ends of a side of the base rectangle: they differ
in exactly one sign. -/
def isBaseSide (a b : Bool × Bool) : Bool :=
  (a.1 != b.1) != (a.2 != b.2)

/-- The segments of the graph pass for keyframe `K` in the words of the
specification. -/
def expectedSegmentsOf (mp : Map α) (K : KeyFramePtr) : List GraphSegment :=
  (((mp.keyFrame K).GetCovisiblesByWeight 100).filter
      (fun N => decide ((mp.keyFrame K).mnId ≤ (mp.keyFrame N).mnId))).map
    (fun N => GraphSegment.mk EdgeKind.covisibility K N)
  ++ ((mp.keyFrame K).GetParent.toList.map (fun P => GraphSegment.mk EdgeKind.spanningTree K P))
  ++ ((mp.keyFrame K).GetLoopEdges.filter
      (fun L => decide ((mp.keyFrame K).mnId ≤ (mp.keyFrame L).mnId))).map
    (fun L => GraphSegment.mk EdgeKind.loop K L)

end Drawer

/-! ## Concrete maps -/

namespace Example

/-- A 3x1 position vector. -/
def pos (x y z : ℚ) : Mat ℚ := ⟨3, 1, fun i _ => if i = 0 then x else if i = 1 then y else z⟩

/-- A unit sphere at the origin with an empty point cloud. -/
def ell : Ellipsoid ℚ := ⟨fun _ => 0, fun _ => 1, 1, 0, fun _ _ => 0⟩

/-- An object whose association query returns point 3 with count 12. -/
def obj : MapObject ℚ := ⟨⟨0, fun _ => 0, fun _ => [(3, 12)]⟩, ell⟩

/-- Points 1 (bad), 2 (reference) and 3 (plain, associated with the object). -/
def pointMap : Map ℚ :=
  { GetAllMapPoints := [1, 2, 3]
    GetReferenceMapPoints := [2]
    GetAllKeyFrames := []
    GetAllMapObjects := [obj]
    mapPoint := fun p => ⟨decide (p = 1), pos 0 0 0⟩
    keyFrame := fun _ => ⟨0, Mat.default, Mat.default, fun _ => [], none, []⟩ }

/-- A drawer over `pointMap`. -/
def pointDrawer : MapDrawer ℚ := MapDrawer.new pointMap (fun _ => 1) true

/-- The map `pointMap` without its object. -/
def plainMap : Map ℚ := { pointMap with GetAllMapObjects := [] }

/-- A drawer over `plainMap`. -/
def plainDrawer : MapDrawer ℚ := MapDrawer.new plainMap (fun _ => 1) true

/-- A pose: a quarter turn about the z axis and the translation (1, 2, 3). -/
def pose : Mat ℚ :=
  ⟨4, 4, fun i j =>
    if i = 0 then (if j = 1 then -1 else if j = 3 then 1 else 0)
    else if i = 1 then (if j = 0 then 1 else if j = 3 then 2 else 0)
    else if i = 2 then (if j = 2 then 1 else if j = 3 then 3 else 0)
    else (if j = 3 then 1 else 0)⟩

/-- A drawer on which `pose` has been set. -/
def poseDrawer : MapDrawer ℚ := SetCurrentCameraPose pointDrawer pose

/-- An array `m[16]` holding zeros. -/
def zeroMatrix : OpenGlMatrix ℚ := ⟨fun _ => 0⟩

/-- Keyframes 10, 20, 30 with identifiers 1, 2, 3 and camera centres
(k, 2k, 3k): covisibility edges 10-20 and 20-30, a loop edge 10-30, spanning
tree 30 -> 20 -> 10. The list is not in identifier order. -/
def graphMap : Map ℚ :=
  { GetAllMapPoints := []
    GetReferenceMapPoints := []
    GetAllKeyFrames := [20, 30, 10]
    GetAllMapObjects := []
    mapPoint := fun _ => ⟨false, pos 0 0 0⟩
    keyFrame := fun k =>
      { mnId := k / 10
        GetPoseInverse := Mat.default
        GetCameraCenter := pos (k : ℚ) (2 * k) (3 * k)
        GetCovisiblesByWeight := fun _ =>
          if k = 10 then [20] else if k = 20 then [30, 10] else if k = 30 then [20] else []
        GetParent := if k = 20 then some 10 else if k = 30 then some 20 else none
        GetLoopEdges := if k = 10 then [30] else if k = 30 then [10] else [] } }

/-- The map `pointMap` without its points: one object, no map point. -/
def noPointMap : Map ℚ :=
  { pointMap with GetAllMapPoints := [], GetReferenceMapPoints := [] }

/-- A drawer over `noPointMap`. -/
def noPointDrawer : MapDrawer ℚ := MapDrawer.new noPointMap (fun _ => 1) true

/-- A drawer over `graphMap`. -/
def graphDrawer : MapDrawer ℚ := MapDrawer.new graphMap (fun _ => 1) true

/-- An object whose association query returns the points 3, 1 and 2, in this
order. -/
def spreadObj : MapObject ℚ := ⟨⟨0, fun _ => 0, fun _ => [(3, 12), (1, 15), (2, 11)]⟩, ell⟩

/-- Points 1 (bad), 2 (reference) and 3 (plain); point p is at the position
(p, 10 p, 100 p); one object, associated with the points 3, 1, 2. -/
def spreadMap : Map ℚ :=
  { GetAllMapPoints := [1, 2, 3]
    GetReferenceMapPoints := [2]
    GetAllKeyFrames := []
    GetAllMapObjects := [spreadObj]
    mapPoint := fun p => ⟨decide (p = 1), pos (p : ℚ) (10 * p) (100 * p)⟩
    keyFrame := fun _ => ⟨0, Mat.default, Mat.default, fun _ => [], none, []⟩ }

/-- A drawer over `spreadMap` that uses category colours. -/
def spreadDrawer : MapDrawer ℚ :=
  { MapDrawer.new spreadMap (fun _ => 1) true with use_category_cols_ := true }

/-- A drawer over `spreadMap` without its object. -/
def spreadPlainDrawer : MapDrawer ℚ :=
  MapDrawer.new { spreadMap with GetAllMapObjects := [] } (fun _ => 1) true

/-- A colour table giving every category the colour (255, 0, 0, 0). -/
def colours : Nat → Scalar ℚ := fun _ => ![255, 0, 0, 0]

/-- A box with axes (1, 2, 3), identity orientation and centre (0, 0, 0). -/
def ell123 : Ellipsoid ℚ := ⟨fun _ => 0, ![1, 2, 3], 1, 0, fun _ _ => 0⟩

end Example

/-! ## Theorems -/

section Theorems

variable {α : Type}

open GLCmd GLenum

/-! ### Positions -/

/-- The call `glVertex3f(pos.at<float>(0), pos.at<float>(1), pos.at<float>(2))`
on a 3x1 matrix passes its three rows. -/
theorem vertexAt_of_isPoint [Field α] (pos : Mat α) (h : pos.IsPoint) :
    vertexAt pos = glVertex3f (pos.data 0 0) (pos.data 1 0) (pos.data 2 0) := by
  unfold vertexAt Mat.at1
  rw [h.2]

/-! ### Sets -/

theorem StdSet.mem_insert (a x : Nat) (s : List Nat) :
    a ∈ StdSet.insert x s ↔ a = x ∨ a ∈ s := by
  induction s with
  | nil => simp [StdSet.insert]
  | cons y ys ih =>
    unfold StdSet.insert
    split_ifs with h1 h2
    · simp
    · subst h2; simp
    · simp only [List.mem_cons, ih]; tauto

theorem StdSet.pairwise_insert (x : Nat) (s : List Nat) (hs : s.Pairwise (· < ·)) :
    (StdSet.insert x s).Pairwise (· < ·) := by
  induction s with
  | nil => simp [StdSet.insert]
  | cons y ys ih =>
    rw [List.pairwise_cons] at hs
    unfold StdSet.insert
    split_ifs with h1 h2
    · refine List.Pairwise.cons ?_ (List.Pairwise.cons hs.1 hs.2)
      intro a ha
      rcases List.mem_cons.1 ha with rfl | ha
      · exact h1
      · exact lt_trans h1 (hs.1 a ha)
    · exact List.Pairwise.cons hs.1 hs.2
    · refine List.Pairwise.cons ?_ (ih hs.2)
      intro a ha
      rcases (StdSet.mem_insert a x ys).1 ha with rfl | ha
      · omega
      · exact hs.1 a ha

theorem StdSet.foldl_insert (l s : List Nat) (hs : s.Pairwise (· < ·)) :
    (l.foldl (fun s x => StdSet.insert x s) s).Pairwise (· < ·) ∧
      ∀ a, a ∈ l.foldl (fun s x => StdSet.insert x s) s ↔ a ∈ l ∨ a ∈ s := by
  induction l generalizing s with
  | nil => simp [hs]
  | cons x xs ih =>
    obtain ⟨h1, h2⟩ := ih (StdSet.insert x s) (StdSet.pairwise_insert x s hs)
    refine ⟨h1, fun a => ?_⟩
    simp only [List.foldl_cons, h2, StdSet.mem_insert, List.mem_cons]
    tauto

theorem StdSet.mem_ofList (a : Nat) (l : List Nat) : a ∈ StdSet.ofList l ↔ a ∈ l := by
  simpa using (StdSet.foldl_insert l [] List.Pairwise.nil).2 a

theorem StdSet.nodup_ofList (l : List Nat) : (StdSet.ofList l).Nodup :=
  ((StdSet.foldl_insert l [] List.Pairwise.nil).1).imp (fun h => Nat.ne_of_lt h)

/-! ### The exclusion set -/

theorem mem_foldl_insert (l : List (MapPointPtr × Int)) (acc : List MapPointPtr)
    (p : MapPointPtr) :
    p ∈ l.foldl (fun acc pt_cnt => acc.insert pt_cnt.1) acc ↔ p ∈ acc ∨ ∃ pc ∈ l, pc.1 = p := by
  induction l generalizing acc with
  | nil => simp
  | cons x xs ih =>
    simp only [List.foldl_cons, ih, List.mem_insert_iff, List.mem_cons, exists_eq_or_imp]
    constructor
    · rintro ((h | h) | h)
      · exact Or.inr (Or.inl h.symm)
      · exact Or.inl h
      · exact Or.inr (Or.inr h)
    · rintro (h | h | h)
      · exact Or.inl (Or.inr h)
      · exact Or.inl (Or.inl h.symm)
      · exact Or.inr h

theorem mem_foldl_objects (objs : List (MapObject α)) (acc : List MapPointPtr)
    (p : MapPointPtr) :
    p ∈ objs.foldl
        (fun acc obj =>
          (obj.GetTrack.GetFilteredAssociatedMapPoints 10).foldl
            (fun acc pt_cnt => acc.insert pt_cnt.1) acc) acc
      ↔ p ∈ acc ∨ ∃ obj ∈ objs, ∃ pc ∈ obj.GetTrack.GetFilteredAssociatedMapPoints 10,
          pc.1 = p := by
  induction objs generalizing acc with
  | nil => simp
  | cons o os ih =>
    simp only [List.foldl_cons, ih, mem_foldl_insert, List.mem_cons, exists_eq_or_imp]
    exact or_assoc

theorem DrawMapPoints.mem_associated (d : MapDrawer α) (flag : Bool) (p : MapPointPtr) :
    p ∈ DrawMapPoints.associated d flag ↔ inExclusionSet d flag p = true := by
  cases flag with
  | false => simp [DrawMapPoints.associated, inExclusionSet]
  | true =>
    simp only [DrawMapPoints.associated, inExclusionSet, if_true, mem_foldl_objects,
      Bool.true_and, List.any_eq_true, beq_iff_eq, List.not_mem_nil, false_or]

theorem DrawMapPoints.firstPass_eq (d : MapDrawer α) (flag : Bool) :
    DrawMapPoints.firstPass d flag = otherPointsPass d flag := by
  unfold DrawMapPoints.firstPass otherPointsPass
  by_cases h : d.mpMap.GetAllMapPoints = []
  · simp [h]
  · have h' : d.mpMap.GetAllMapPoints.isEmpty = false := by
      simpa [List.isEmpty_iff] using h
    simp only [h', Bool.false_eq_true, if_false]
    apply List.filter_congr
    intro p _
    have h1 : decide (0 < (StdSet.ofList d.mpMap.GetReferenceMapPoints).count p)
        = decide (p ∈ d.mpMap.GetReferenceMapPoints) := by
      rw [decide_eq_decide, List.count_pos_iff, StdSet.mem_ofList]
    have h2 : decide (0 < (DrawMapPoints.associated d flag).count p)
        = inExclusionSet d flag p := by
      rw [Bool.eq_iff_iff, decide_eq_true_iff, List.count_pos_iff,
        DrawMapPoints.mem_associated]
    rw [h1, h2]
    cases (d.mpMap.mapPoint p).isBad <;> simp

theorem DrawMapPoints.mem_secondPass (d : MapDrawer α) (flag : Bool) (p : MapPointPtr) :
    p ∈ DrawMapPoints.secondPass d flag ↔
      d.mpMap.GetAllMapPoints ≠ [] ∧ p ∈ d.mpMap.GetReferenceMapPoints ∧
        (d.mpMap.mapPoint p).isBad = false ∧ inExclusionSet d flag p = false := by
  unfold DrawMapPoints.secondPass
  by_cases h : d.mpMap.GetAllMapPoints = []
  · simp [h]
  · have h' : d.mpMap.GetAllMapPoints.isEmpty = false := by
      simpa [List.isEmpty_iff] using h
    have h2 : decide (0 < (DrawMapPoints.associated d flag).count p)
        = inExclusionSet d flag p := by
      rw [Bool.eq_iff_iff, decide_eq_true_iff, List.count_pos_iff,
        DrawMapPoints.mem_associated]
    simp only [h', Bool.false_eq_true, if_false, List.mem_filter, StdSet.mem_ofList, h2,
      Bool.and_eq_true, Bool.not_eq_true', ne_eq, h, not_false_eq_true, true_and]

theorem DrawMapPoints.nodup_secondPass (d : MapDrawer α) (flag : Bool) :
    (DrawMapPoints.secondPass d flag).Nodup := by
  unfold DrawMapPoints.secondPass
  by_cases h : d.mpMap.GetAllMapPoints.isEmpty = true
  · simp [h]
  · simp only [h, if_false]
    exact (StdSet.nodup_ofList _).filter _

theorem DrawMapObjectsPoints.mem_pass (d : MapDrawer α) (p : MapPointPtr) :
    p ∈ DrawMapObjectsPoints.pass d ↔
      d.mpMap.GetAllMapPoints ≠ [] ∧ (d.mpMap.mapPoint p).isBad = false ∧
        inExclusionSet d true p = true := by
  unfold DrawMapObjectsPoints.pass
  by_cases h : d.mpMap.GetAllMapPoints = []
  · simp [h]
  · have h' : d.mpMap.GetAllMapPoints.isEmpty = false := by
      simpa [List.isEmpty_iff] using h
    simp only [h', Bool.false_eq_true, if_false, List.mem_flatMap, DrawMapObjectsPoints.pointsOf,
      List.mem_filter, List.mem_map, Bool.not_eq_true', ne_eq, h, not_false_eq_true, true_and,
      inExclusionSet, Bool.true_and, List.any_eq_true, beq_iff_eq]
    constructor
    · rintro ⟨obj, hobj, ⟨pc, hpc, rfl⟩, hbad⟩
      exact ⟨hbad, obj, hobj, pc, hpc, rfl⟩
    · rintro ⟨hbad, obj, hobj, pc, hpc, rfl⟩
      exact ⟨obj, hobj, ⟨pc, hpc, rfl⟩, hbad⟩

/-! ### The graph pass -/

theorem countP_le_one_of_nodup (l : List Nat) (hnd : l.Nodup) (q : Nat → Bool) (B : Nat)
    (h : ∀ n, q n = true → n = B) :
    l.countP q = if B ∈ l ∧ q B = true then 1 else 0 := by
  induction l with
  | nil => simp
  | cons x xs ih =>
    rw [List.nodup_cons] at hnd
    rw [List.countP_cons, ih hnd.2]
    by_cases hx : q x = true
    · have hxB : x = B := h x hx
      subst hxB
      simp [hx, hnd.1]
    · by_cases hB : q B = true
      · have hne : ¬ B = x := fun e => hx (e ▸ hB)
        simp [hx, hB, hne]
      · simp [hx, hB]

theorem segmentsBetween_comm (kind : EdgeKind) (A B : KeyFramePtr) (segs : List GraphSegment) :
    segmentsBetween kind A B segs = segmentsBetween kind B A segs := by
  unfold segmentsBetween
  congr 1
  funext s
  rw [Bool.or_comm]

theorem segmentsBetween_append (kind : EdgeKind) (A B : KeyFramePtr)
    (s₁ s₂ : List GraphSegment) :
    segmentsBetween kind A B (s₁ ++ s₂)
      = segmentsBetween kind A B s₁ + segmentsBetween kind A B s₂ := by
  simp [segmentsBetween]

theorem DrawKeyFrames.kf_of_mem_segmentsOf (mp : Map α) (K : KeyFramePtr) (s : GraphSegment)
    (hs : s ∈ DrawKeyFrames.segmentsOf mp K) : s.kf = K := by
  unfold DrawKeyFrames.segmentsOf at hs
  simp only [List.mem_append, List.mem_map, List.mem_filter] at hs
  rcases hs with (hs | hs) | hs
  · split at hs
    · simp only [List.mem_map, List.mem_filter] at hs
      obtain ⟨n, _, rfl⟩ := hs
      rfl
    · simp at hs
  · split at hs
    · simp only [List.mem_singleton] at hs
      subst hs
      rfl
    · simp at hs
  · obtain ⟨n, _, rfl⟩ := hs
    rfl

theorem DrawKeyFrames.segmentsBetween_other (mp : Map α) (kind : EdgeKind)
    (A B : KeyFramePtr) (rest : List KeyFramePtr) (hA : A ∉ rest) (hB : B ∉ rest) :
    segmentsBetween kind A B (DrawKeyFrames.segments mp rest) = 0 := by
  unfold segmentsBetween DrawKeyFrames.segments
  rw [List.countP_eq_zero]
  intro s hs
  obtain ⟨K, hK, hsK⟩ := List.mem_flatMap.1 hs
  have hkf := DrawKeyFrames.kf_of_mem_segmentsOf mp K s hsK
  have h1 : s.kf ≠ A := fun e => hA (e ▸ hkf ▸ hK)
  have h2 : s.kf ≠ B := fun e => hB (e ▸ hkf ▸ hK)
  simp [h1, h2]

theorem DrawKeyFrames.covisibility_of (mp : Map α) (A B : KeyFramePtr) (hAB : A ≠ B)
    (hnd : ((mp.keyFrame A).GetCovisiblesByWeight 100).Nodup) :
    segmentsBetween EdgeKind.covisibility A B (DrawKeyFrames.segmentsOf mp A)
      = if B ∈ (mp.keyFrame A).GetCovisiblesByWeight 100
            ∧ ¬ (mp.keyFrame B).mnId < (mp.keyFrame A).mnId then 1 else 0 := by
  have key := countP_le_one_of_nodup ((mp.keyFrame A).GetCovisiblesByWeight 100) hnd
    (fun n => decide (n = B) && !decide ((mp.keyFrame n).mnId < (mp.keyFrame A).mnId)) B
    (by intro n hn; simp at hn; exact hn.1)
  simp only [decide_True, Bool.true_and, Bool.not_eq_true', decide_eq_false_iff_not] at key
  rw [← key]
  unfold segmentsBetween DrawKeyFrames.segmentsOf
  have hcov : ∀ l : List KeyFramePtr,
      List.countP (fun s : GraphSegment =>
          decide (s.kind = EdgeKind.covisibility)
            && (decide (s.kf = A ∧ s.other = B) || decide (s.kf = B ∧ s.other = A)))
        (if (!l.isEmpty) = true then
          (l.filter (fun vit =>
              !decide ((mp.keyFrame vit).mnId < (mp.keyFrame A).mnId))).map
            (fun vit => GraphSegment.mk EdgeKind.covisibility A vit)
         else [])
      = List.countP (fun n =>
          decide (n = B) && !decide ((mp.keyFrame n).mnId < (mp.keyFrame A).mnId)) l := by
    intro l
    cases l with
    | nil => simp
    | cons x xs =>
      simp only [List.isEmpty_cons, Bool.not_false, if_true, List.countP_map,
        List.countP_filter]
      congr 1
      funext n
      simp [hAB, Bool.and_comm]
  simp only [List.countP_append, hcov]
  have h0 : ∀ l : List GraphSegment, (∀ s ∈ l, s.kind ≠ EdgeKind.covisibility) →
      List.countP (fun s : GraphSegment =>
          decide (s.kind = EdgeKind.covisibility)
            && (decide (s.kf = A ∧ s.other = B) || decide (s.kf = B ∧ s.other = A))) l = 0 := by
    intro l hl
    rw [List.countP_eq_zero]
    intro s hs
    simp [hl s hs]
  have hloop := h0
    ((List.filter (fun sit => !decide ((mp.keyFrame sit).mnId < (mp.keyFrame A).mnId))
        (mp.keyFrame A).GetLoopEdges).map (fun sit => GraphSegment.mk EdgeKind.loop A sit))
    (by
      intro s hs
      simp only [List.mem_map, List.mem_filter] at hs
      obtain ⟨n, _, rfl⟩ := hs
      simp)
  have htree := h0
    (match (mp.keyFrame A).GetParent with
      | some pParent => [GraphSegment.mk EdgeKind.spanningTree A pParent]
      | none => [])
    (by
      intro s hs
      split at hs
      · simp only [List.mem_singleton] at hs
        subst hs
        simp
      · simp at hs)
  rw [hloop, htree]
  rfl

theorem DrawKeyFrames.loop_of (mp : Map α) (A B : KeyFramePtr) (hAB : A ≠ B)
    (hnd : (mp.keyFrame A).GetLoopEdges.Nodup) :
    segmentsBetween EdgeKind.loop A B (DrawKeyFrames.segmentsOf mp A)
      = if B ∈ (mp.keyFrame A).GetLoopEdges
            ∧ ¬ (mp.keyFrame B).mnId < (mp.keyFrame A).mnId then 1 else 0 := by
  have key := countP_le_one_of_nodup (mp.keyFrame A).GetLoopEdges hnd
    (fun n => decide (n = B) && !decide ((mp.keyFrame n).mnId < (mp.keyFrame A).mnId)) B
    (by intro n hn; simp at hn; exact hn.1)
  simp only [decide_True, Bool.true_and, Bool.not_eq_true', decide_eq_false_iff_not] at key
  rw [← key]
  unfold segmentsBetween DrawKeyFrames.segmentsOf
  have hloop :
      List.countP (fun s : GraphSegment =>
          decide (s.kind = EdgeKind.loop)
            && (decide (s.kf = A ∧ s.other = B) || decide (s.kf = B ∧ s.other = A)))
        (((mp.keyFrame A).GetLoopEdges.filter (fun sit =>
              !decide ((mp.keyFrame sit).mnId < (mp.keyFrame A).mnId))).map
            (fun sit => GraphSegment.mk EdgeKind.loop A sit))
      = List.countP (fun n =>
          decide (n = B) && !decide ((mp.keyFrame n).mnId < (mp.keyFrame A).mnId))
          (mp.keyFrame A).GetLoopEdges := by
    simp only [List.countP_map, List.countP_filter]
    congr 1
    funext n
    simp [hAB, Bool.and_comm]
  have h0 : ∀ l : List GraphSegment, (∀ s ∈ l, s.kind ≠ EdgeKind.loop) →
      List.countP (fun s : GraphSegment =>
          decide (s.kind = EdgeKind.loop)
            && (decide (s.kf = A ∧ s.other = B) || decide (s.kf = B ∧ s.other = A))) l = 0 := by
    intro l hl
    rw [List.countP_eq_zero]
    intro s hs
    simp [hl s hs]
  have hcov := h0
    (if (!((mp.keyFrame A).GetCovisiblesByWeight 100).isEmpty) = true then
        (((mp.keyFrame A).GetCovisiblesByWeight 100).filter (fun vit =>
            !decide ((mp.keyFrame vit).mnId < (mp.keyFrame A).mnId))).map
          (fun vit => GraphSegment.mk EdgeKind.covisibility A vit)
      else [])
    (by
      intro s hs
      split at hs
      · simp only [List.mem_map, List.mem_filter] at hs
        obtain ⟨n, _, rfl⟩ := hs
        simp
      · simp at hs)
  have htree := h0
    (match (mp.keyFrame A).GetParent with
      | some pParent => [GraphSegment.mk EdgeKind.spanningTree A pParent]
      | none => [])
    (by
      intro s hs
      split at hs
      · simp only [List.mem_singleton] at hs
        subst hs
        simp
      · simp at hs)
  simp only [List.countP_append]
  rw [hloop, hcov, htree]
  simp only [Nat.add_zero, Nat.zero_add]

/-- The pair count over a keyframe list that holds `A` and `B` once each is the
sum of the counts of the visits of `A` and of `B`. -/
theorem DrawKeyFrames.segmentsBetween_split (mp : Map α) (kind : EdgeKind)
    (vpKFs : List KeyFramePtr) (hnd : vpKFs.Nodup) (A B : KeyFramePtr)
    (hA : A ∈ vpKFs) (hB : B ∈ vpKFs) (hAB : A ≠ B) :
    segmentsBetween kind A B (DrawKeyFrames.segments mp vpKFs)
      = segmentsBetween kind A B (DrawKeyFrames.segmentsOf mp A)
        + segmentsBetween kind A B (DrawKeyFrames.segmentsOf mp B) := by
  have hB' : B ∈ vpKFs.erase A := (List.mem_erase_of_ne (Ne.symm hAB)).2 hB
  have hp : vpKFs.Perm (A :: B :: (vpKFs.erase A).erase B) :=
    (List.perm_cons_erase hA).trans ((List.perm_cons_erase hB').cons A)
  have hnd' := hnd.perm hp
  rw [List.nodup_cons, List.nodup_cons] at hnd'
  have hA' : A ∉ (vpKFs.erase A).erase B := fun h => hnd'.1 (List.mem_cons_of_mem B h)
  have hcount : segmentsBetween kind A B (DrawKeyFrames.segments mp vpKFs)
      = segmentsBetween kind A B
          (DrawKeyFrames.segments mp (A :: B :: (vpKFs.erase A).erase B)) := by
    unfold segmentsBetween DrawKeyFrames.segments
    exact (hp.flatMap_right _).countP_eq _
  rw [hcount]
  have hrest := DrawKeyFrames.segmentsBetween_other mp kind A B _ hA' hnd'.2.1
  unfold DrawKeyFrames.segments at hrest ⊢
  rw [List.flatMap_cons, List.flatMap_cons, segmentsBetween_append, segmentsBetween_append,
    hrest, Nat.add_zero]

/-- The call list of the graph pass alone: the header, two vertices per
segment, `glEnd`. -/
theorem DrawKeyFrames.graph_only [Field α] (d : MapDrawer α) :
    DrawKeyFrames d false true =
      [glLineWidth d.mGraphLineWidth, glColor4f 0 1 0 0.6, glBegin GL_LINES]
        ++ (DrawKeyFrames.segments d.mpMap d.mpMap.GetAllKeyFrames).flatMap
            (DrawKeyFrames.segmentVertices d.mpMap)
        ++ [glEnd] := by
  simp [DrawKeyFrames]

/-- The two vertices of a segment are the rows of the two camera centres. -/
theorem DrawKeyFrames.segmentVertices_of_isPoint [Field α] (mp : Map α)
    (hcentre : ∀ k, (mp.keyFrame k).GetCameraCenter.IsPoint) :
    DrawKeyFrames.segmentVertices mp = fun s =>
      [glVertex3f ((mp.keyFrame s.kf).GetCameraCenter.data 0 0)
          ((mp.keyFrame s.kf).GetCameraCenter.data 1 0)
          ((mp.keyFrame s.kf).GetCameraCenter.data 2 0),
       glVertex3f ((mp.keyFrame s.other).GetCameraCenter.data 0 0)
          ((mp.keyFrame s.other).GetCameraCenter.data 1 0)
          ((mp.keyFrame s.other).GetCameraCenter.data 2 0)] := by
  funext s
  rw [DrawKeyFrames.segmentVertices, vertexAt_of_isPoint _ (hcentre s.kf),
    vertexAt_of_isPoint _ (hcentre s.other)]

/-! ### The camera pose -/

/-- The value of `M` on return for a pose with at least 3 rows and 4 columns,
entry by entry. -/
theorem GetCurrentOpenGLCameraMatrix_entries [Field α] (d : MapDrawer α) (M : OpenGlMatrix α)
    (hrows : 3 ≤ d.mCameraPose.rows) (hcols : 4 ≤ d.mCameraPose.cols) :
    ∃ M', GetCurrentOpenGLCameraMatrix d M = some M'
      ∧ M'.m 0 = d.mCameraPose.data 0 0
      ∧ M'.m 1 = d.mCameraPose.data 0 1
      ∧ M'.m 2 = d.mCameraPose.data 0 2
      ∧ M'.m 3 = 0
      ∧ M'.m 4 = d.mCameraPose.data 1 0
      ∧ M'.m 5 = d.mCameraPose.data 1 1
      ∧ M'.m 6 = d.mCameraPose.data 1 2
      ∧ M'.m 7 = 0
      ∧ M'.m 8 = d.mCameraPose.data 2 0
      ∧ M'.m 9 = d.mCameraPose.data 2 1
      ∧ M'.m 10 = d.mCameraPose.data 2 2
      ∧ M'.m 11 = 0
      ∧ M'.m 12 = -(d.mCameraPose.data 0 0 * d.mCameraPose.data 0 3)
                  + -(d.mCameraPose.data 1 0 * d.mCameraPose.data 1 3)
                  + -(d.mCameraPose.data 2 0 * d.mCameraPose.data 2 3)
      ∧ M'.m 13 = -(d.mCameraPose.data 0 1 * d.mCameraPose.data 0 3)
                  + -(d.mCameraPose.data 1 1 * d.mCameraPose.data 1 3)
                  + -(d.mCameraPose.data 2 1 * d.mCameraPose.data 2 3)
      ∧ M'.m 14 = -(d.mCameraPose.data 0 2 * d.mCameraPose.data 0 3)
                  + -(d.mCameraPose.data 1 2 * d.mCameraPose.data 1 3)
                  + -(d.mCameraPose.data 2 2 * d.mCameraPose.data 2 3)
      ∧ M'.m 15 = 1 := by
  have hne : d.mCameraPose.empty = false := by
    simp only [Mat.empty, Bool.or_eq_false_iff, beq_eq_false_iff_ne, ne_eq]
    omega
  have h3 : 3 ≤ d.mCameraPose.cols := by omega
  have h4 : 3 < d.mCameraPose.cols := by omega
  simp [GetCurrentOpenGLCameraMatrix, hne, Mat.rowRange, Mat.colRange, Mat.col, Mat.t, Mat.neg,
    Mat.mul, Mat.at1, Mat.at2, hrows, h3, h4, List.range, List.range.loop, OpenGlMatrix.set]

theorem OpenGlMatrix.SetIdentity_isIdentity [Field α] (M : OpenGlMatrix α) :
    M.SetIdentity.IsIdentity := by
  intro i hi
  interval_cases i <;> simp [OpenGlMatrix.SetIdentity, OpenGlMatrix.set]

theorem GetCurrentOpenGLCameraMatrix_of_empty [Field α] (d : MapDrawer α) (M : OpenGlMatrix α)
    (h : d.mCameraPose.empty = true) :
    GetCurrentOpenGLCameraMatrix d M = some M.SetIdentity := by
  simp [GetCurrentOpenGLCameraMatrix, h]

/-! ### Claims on the point passes -/

/-- C2 (as stated, refuted). With exclusion disabled, point 3 of `pointMap` (not bad,
not a reference point, associated with the object) is drawn both in the
non-reference pass of DrawMapPoints and in the object-points pass of
DrawMapObjectsPoints: the claim "at most one of the three passes, for either
value of the flag" fails. -/
theorem drawn_in_two_passes_when_exclusion_disabled :
    ¬ ((¬ (3 ∈ DrawMapPoints.firstPass Example.pointDrawer false
            ∧ 3 ∈ DrawMapPoints.secondPass Example.pointDrawer false)
        ∧ ¬ (3 ∈ DrawMapPoints.firstPass Example.pointDrawer false
            ∧ 3 ∈ DrawMapObjectsPoints.pass Example.pointDrawer)
        ∧ ¬ (3 ∈ DrawMapPoints.secondPass Example.pointDrawer false
            ∧ 3 ∈ DrawMapObjectsPoints.pass Example.pointDrawer))
      ∧ ((Example.pointDrawer.mpMap.mapPoint 3).isBad = true →
          3 ∉ DrawMapPoints.firstPass Example.pointDrawer false
          ∧ 3 ∉ DrawMapPoints.secondPass Example.pointDrawer false
          ∧ 3 ∉ DrawMapObjectsPoints.pass Example.pointDrawer)) := by
  intro h
  exact h.1.2.1 ⟨by decide, by decide⟩

/-- C2 (amended). In one frame (DrawMapPoints then DrawMapObjectsPoints on the
same snapshot) no point is drawn in both passes of DrawMapPoints, whatever the
flag; when object-point exclusion is enabled no point is drawn in more than one
of the three passes; and a bad point is drawn in none of the three passes,
whatever the flag. -/
theorem point_passes_disjoint (d : MapDrawer α) (flag : Bool) (p : MapPointPtr) :
    ¬ (p ∈ DrawMapPoints.firstPass d flag ∧ p ∈ DrawMapPoints.secondPass d flag)
    ∧ (flag = true →
        ¬ (p ∈ DrawMapPoints.firstPass d flag ∧ p ∈ DrawMapObjectsPoints.pass d)
        ∧ ¬ (p ∈ DrawMapPoints.secondPass d flag ∧ p ∈ DrawMapObjectsPoints.pass d))
    ∧ ((d.mpMap.mapPoint p).isBad = true →
        p ∉ DrawMapPoints.firstPass d flag
        ∧ p ∉ DrawMapPoints.secondPass d flag
        ∧ p ∉ DrawMapObjectsPoints.pass d) := by
  have hfirst : p ∈ DrawMapPoints.firstPass d flag ↔
      p ∈ d.mpMap.GetAllMapPoints ∧ (d.mpMap.mapPoint p).isBad = false
        ∧ p ∉ d.mpMap.GetReferenceMapPoints ∧ inExclusionSet d flag p = false := by
    rw [DrawMapPoints.firstPass_eq]
    simp [otherPointsPass, and_assoc]
  refine ⟨?_, ?_, ?_⟩
  · rintro ⟨h1, h2⟩
    exact (hfirst.1 h1).2.2.1 ((DrawMapPoints.mem_secondPass d flag p).1 h2).2.1
  · rintro rfl
    refine ⟨?_, ?_⟩
    · rintro ⟨h1, h2⟩
      have a := (hfirst.1 h1).2.2.2
      have b := ((DrawMapObjectsPoints.mem_pass d p).1 h2).2.2
      rw [a] at b
      exact Bool.false_ne_true b
    · rintro ⟨h1, h2⟩
      have a := ((DrawMapPoints.mem_secondPass d true p).1 h1).2.2.2
      have b := ((DrawMapObjectsPoints.mem_pass d p).1 h2).2.2
      rw [a] at b
      exact Bool.false_ne_true b
  · intro hbad
    refine ⟨?_, ?_, ?_⟩
    · intro h
      have a := (hfirst.1 h).2.1
      rw [hbad] at a
      exact Bool.false_ne_true a.symm
    · intro h
      have a := ((DrawMapPoints.mem_secondPass d flag p).1 h).2.2.1
      rw [hbad] at a
      exact Bool.false_ne_true a.symm
    · intro h
      have a := ((DrawMapObjectsPoints.mem_pass d p).1 h).2.1
      rw [hbad] at a
      exact Bool.false_ne_true a.symm

/-- Witness of C2 (amended) on `pointMap`: with exclusion enabled, point 3
(associated with the object) is in the object-points pass and therefore in
neither pass of DrawMapPoints; point 1 is bad and in none of the passes. -/
theorem point_passes_disjoint_witness :
    (3 ∈ DrawMapObjectsPoints.pass Example.pointDrawer
      ∧ ¬ (3 ∈ DrawMapPoints.firstPass Example.pointDrawer true
            ∧ 3 ∈ DrawMapObjectsPoints.pass Example.pointDrawer)
      ∧ ¬ (3 ∈ DrawMapPoints.secondPass Example.pointDrawer true
            ∧ 3 ∈ DrawMapObjectsPoints.pass Example.pointDrawer))
    ∧ ((Example.pointDrawer.mpMap.mapPoint 1).isBad = true
      ∧ 1 ∉ DrawMapPoints.firstPass Example.pointDrawer true
      ∧ 1 ∉ DrawMapPoints.secondPass Example.pointDrawer true
      ∧ 1 ∉ DrawMapObjectsPoints.pass Example.pointDrawer) :=
  ⟨⟨by decide, (point_passes_disjoint Example.pointDrawer true 3).2.1 rfl⟩,
   ⟨by decide, (point_passes_disjoint Example.pointDrawer true 1).2.2 (by decide)⟩⟩

/-- C3. On a snapshot whose point positions are 3x1 vectors and whose
all-points list is non-empty, DrawMapPoints issues exactly two point batches:
the first holds one `glVertex3f` call with the coordinates (x, y, z) of the
position of each all-points entry, in list order, that is not bad, not a
reference point and not in the exclusion set; the second holds the coordinates
of the position of each reference point that is not bad and not excluded, each
once. The exclusion set is empty when the flag is false, and a reference point
is never in the first batch. For three points (one bad, one reference, one
plain, in any order), no objects and the flag false, exactly two vertices are
emitted, one in each batch. -/
theorem DrawMapPoints_two_passes [Field α] (d : MapDrawer α) (size : α) (flag : Bool)
    (hpos : ∀ p, (d.mpMap.mapPoint p).GetWorldPos.IsPoint) :
    (d.mpMap.GetAllMapPoints ≠ [] →
      DrawMapPoints d size flag =
          [glPointSize size, glBegin GL_POINTS, glColor3f 0 0 0]
            ++ (otherPointsPass d flag).map (fun p =>
                glVertex3f ((d.mpMap.mapPoint p).GetWorldPos.data 0 0)
                  ((d.mpMap.mapPoint p).GetWorldPos.data 1 0)
                  ((d.mpMap.mapPoint p).GetWorldPos.data 2 0))
            ++ [glEnd]
            ++ [glPointSize size, glBegin GL_POINTS, glColor3f 1 0 0]
            ++ (DrawMapPoints.secondPass d flag).map (fun p =>
                glVertex3f ((d.mpMap.mapPoint p).GetWorldPos.data 0 0)
                  ((d.mpMap.mapPoint p).GetWorldPos.data 1 0)
                  ((d.mpMap.mapPoint p).GetWorldPos.data 2 0))
            ++ [glEnd]
        ∧ (DrawMapPoints.secondPass d flag).Nodup
        ∧ (∀ p, p ∈ DrawMapPoints.secondPass d flag ↔
            p ∈ d.mpMap.GetReferenceMapPoints ∧ (d.mpMap.mapPoint p).isBad = false
              ∧ inExclusionSet d flag p = false)
        ∧ (∀ p ∈ d.mpMap.GetReferenceMapPoints, p ∉ otherPointsPass d flag))
    ∧ (∀ p, inExclusionSet d false p = false)
    ∧ (∀ b r p : MapPointPtr,
        d.mpMap.GetAllMapPoints.Perm [b, r, p] →
        d.mpMap.GetReferenceMapPoints = [r] →
        d.mpMap.GetAllMapObjects = [] →
        (d.mpMap.mapPoint b).isBad = true →
        (d.mpMap.mapPoint r).isBad = false →
        (d.mpMap.mapPoint p).isBad = false →
        r ≠ p →
        DrawMapPoints d size false =
          [glPointSize size, glBegin GL_POINTS, glColor3f 0 0 0,
           glVertex3f ((d.mpMap.mapPoint p).GetWorldPos.data 0 0)
             ((d.mpMap.mapPoint p).GetWorldPos.data 1 0)
             ((d.mpMap.mapPoint p).GetWorldPos.data 2 0),
           glEnd,
           glPointSize size, glBegin GL_POINTS, glColor3f 1 0 0,
           glVertex3f ((d.mpMap.mapPoint r).GetWorldPos.data 0 0)
             ((d.mpMap.mapPoint r).GetWorldPos.data 1 0)
             ((d.mpMap.mapPoint r).GetWorldPos.data 2 0),
           glEnd]) := by
  have hv : ∀ p, vertexAt (d.mpMap.mapPoint p).GetWorldPos
      = glVertex3f ((d.mpMap.mapPoint p).GetWorldPos.data 0 0)
          ((d.mpMap.mapPoint p).GetWorldPos.data 1 0)
          ((d.mpMap.mapPoint p).GetWorldPos.data 2 0) :=
    fun p => vertexAt_of_isPoint _ (hpos p)
  have hstream : ∀ fl : Bool, d.mpMap.GetAllMapPoints ≠ [] →
      DrawMapPoints d size fl =
          [glPointSize size, glBegin GL_POINTS, glColor3f 0 0 0]
            ++ (otherPointsPass d fl).map (fun p =>
                glVertex3f ((d.mpMap.mapPoint p).GetWorldPos.data 0 0)
                  ((d.mpMap.mapPoint p).GetWorldPos.data 1 0)
                  ((d.mpMap.mapPoint p).GetWorldPos.data 2 0))
            ++ [glEnd]
            ++ [glPointSize size, glBegin GL_POINTS, glColor3f 1 0 0]
            ++ (DrawMapPoints.secondPass d fl).map (fun p =>
                glVertex3f ((d.mpMap.mapPoint p).GetWorldPos.data 0 0)
                  ((d.mpMap.mapPoint p).GetWorldPos.data 1 0)
                  ((d.mpMap.mapPoint p).GetWorldPos.data 2 0))
            ++ [glEnd] := by
    intro fl hne
    have h' : d.mpMap.GetAllMapPoints.isEmpty = false := by
      simpa [List.isEmpty_iff] using hne
    unfold DrawMapPoints
    rw [DrawMapPoints.firstPass_eq, h']
    simp only [Bool.false_eq_true, if_false, hv]
  refine ⟨fun hne => ⟨hstream flag hne, DrawMapPoints.nodup_secondPass d flag, ?_, ?_⟩, ?_, ?_⟩
  · intro p
    rw [DrawMapPoints.mem_secondPass]
    exact ⟨fun h => h.2, fun h => ⟨hne, h⟩⟩
  · intro p hp hmem
    simp [otherPointsPass, hp] at hmem
  · intro p
    simp [inExclusionSet]
  · intro b r p hperm href hobj hb hr hp hrp
    have hne : d.mpMap.GetAllMapPoints ≠ [] := by
      intro h
      rw [h] at hperm
      simpa using hperm.length_eq
    have h' : d.mpMap.GetAllMapPoints.isEmpty = false := by
      simpa [List.isEmpty_iff] using hne
    have hfirst : otherPointsPass d false = [p] := by
      unfold otherPointsPass
      apply List.perm_singleton.1
      refine (hperm.filter _).trans ?_
      simp [List.filter, hb, hr, hp, href, inExclusionSet, Ne.symm hrp]
    have hsecond : DrawMapPoints.secondPass d false = [r] := by
      simp [DrawMapPoints.secondPass, href, StdSet.ofList, StdSet.insert, h', hr,
        DrawMapPoints.associated, List.filter]
    rw [hstream false hne, hfirst, hsecond]
    rfl

/-- Witness of C3 on `spreadMap` without its object (points 1 bad, 2 reference,
3 plain, point p at (p, 10 p, 100 p), flag false): the position of point 3 in
the first batch, the position of point 2 in the second. -/
theorem DrawMapPoints_two_passes_witness :
    Example.spreadPlainDrawer.mpMap.GetAllMapPoints ≠ []
    ∧ (DrawMapPoints.secondPass Example.spreadPlainDrawer false).Nodup
    ∧ DrawMapPoints Example.spreadPlainDrawer 2 false =
        [glPointSize 2, glBegin GL_POINTS, glColor3f 0 0 0,
         glVertex3f 3 30 300,
         glEnd,
         glPointSize 2, glBegin GL_POINTS, glColor3f 1 0 0,
         glVertex3f 2 20 200,
         glEnd] := by
  refine ⟨by decide,
    ((DrawMapPoints_two_passes Example.spreadPlainDrawer 2 false
      (fun _ => ⟨rfl, rfl⟩)).1 (by decide)).2.1, ?_⟩
  rw [(DrawMapPoints_two_passes Example.spreadPlainDrawer 2 false (fun _ => ⟨rfl, rfl⟩)).2.2 1 2 3
    (List.Perm.refl _) rfl rfl (by decide) (by decide) (by decide) (by decide)]
  simp [Example.spreadPlainDrawer, Example.spreadMap, MapDrawer.new, Example.pos]
  norm_num

/-- C4. With object-point exclusion enabled, a point returned by the
threshold-10 association query of any object of the map is emitted neither in
the non-reference pass nor in the reference pass of DrawMapPoints. -/
theorem associated_points_not_drawn (d : MapDrawer α) (obj : MapObject α)
    (hobj : obj ∈ d.mpMap.GetAllMapObjects) (pt_cnt : MapPointPtr × Int)
    (hpt : pt_cnt ∈ obj.GetTrack.GetFilteredAssociatedMapPoints 10) :
    pt_cnt.1 ∉ DrawMapPoints.firstPass d true
    ∧ pt_cnt.1 ∉ DrawMapPoints.secondPass d true := by
  have hex : inExclusionSet d true pt_cnt.1 = true := by
    simp only [inExclusionSet, Bool.true_and, List.any_eq_true, beq_iff_eq]
    exact ⟨obj, hobj, pt_cnt, hpt, rfl⟩
  constructor
  · intro h
    rw [DrawMapPoints.firstPass_eq] at h
    simp [otherPointsPass, hex] at h
  · intro h
    have a := ((DrawMapPoints.mem_secondPass d true pt_cnt.1).1 h).2.2.2
    rw [hex] at a
    exact Bool.false_ne_true a.symm

/-- Witness of C4 on `pointMap`: point 3, returned by the object's query, is
in neither pass. -/
theorem associated_points_not_drawn_witness :
    (3 : MapPointPtr) ∉ DrawMapPoints.firstPass Example.pointDrawer true
    ∧ (3 : MapPointPtr) ∉ DrawMapPoints.secondPass Example.pointDrawer true :=
  associated_points_not_drawn Example.pointDrawer Example.obj (by simp [Example.pointDrawer, Example.pointMap, MapDrawer.new])
    ((3, 12) : MapPointPtr × Int) (by simp [Example.obj])

/-! ### Claims on the graph pass -/

/-- C1. Let the keyframe list hold each keyframe once, with pairwise distinct
identifiers and 3x1 camera centres, and let `vpKFs` be any permutation of it.
The graph pass of DrawKeyFrames over `vpKFs` emits, between `glBegin(GL_LINES)`
and `glEnd`, two `glVertex3f` calls for each segment of the pass, in order: the
coordinates of the camera centre of the keyframe being visited, then those of
the camera centre of the keyframe it is joined to. If the weight-100
covisibility lists are duplicate-free and symmetric, then for listed keyframes
`A ≠ B` with `B` covisible from `A` exactly one of these segments is a
covisibility segment produced by the pair `A`, `B` (in either direction); the
same holds for the loop edges. Irreflexivity of the relations is not
needed. -/
theorem graph_edge_drawn_once [Field α] (d : MapDrawer α) (vpKFs : List KeyFramePtr)
    (hperm : vpKFs.Perm d.mpMap.GetAllKeyFrames)
    (hnodup : d.mpMap.GetAllKeyFrames.Nodup)
    (hid : ∀ K ∈ d.mpMap.GetAllKeyFrames, ∀ N ∈ d.mpMap.GetAllKeyFrames,
      (d.mpMap.keyFrame K).mnId = (d.mpMap.keyFrame N).mnId → K = N)
    (hcentre : ∀ k, (d.mpMap.keyFrame k).GetCameraCenter.IsPoint)
    (A B : KeyFramePtr) (hA : A ∈ d.mpMap.GetAllKeyFrames) (hB : B ∈ d.mpMap.GetAllKeyFrames)
    (hAB : A ≠ B) :
    DrawKeyFrames { d with mpMap := { d.mpMap with GetAllKeyFrames := vpKFs } } false true
        = [glLineWidth d.mGraphLineWidth, glColor4f 0 1 0 0.6, glBegin GL_LINES]
          ++ (DrawKeyFrames.segments d.mpMap vpKFs).flatMap (fun s =>
              [glVertex3f ((d.mpMap.keyFrame s.kf).GetCameraCenter.data 0 0)
                  ((d.mpMap.keyFrame s.kf).GetCameraCenter.data 1 0)
                  ((d.mpMap.keyFrame s.kf).GetCameraCenter.data 2 0),
               glVertex3f ((d.mpMap.keyFrame s.other).GetCameraCenter.data 0 0)
                  ((d.mpMap.keyFrame s.other).GetCameraCenter.data 1 0)
                  ((d.mpMap.keyFrame s.other).GetCameraCenter.data 2 0)])
          ++ [glEnd]
    ∧ ((∀ K ∈ d.mpMap.GetAllKeyFrames, ((d.mpMap.keyFrame K).GetCovisiblesByWeight 100).Nodup) →
      (∀ K ∈ d.mpMap.GetAllKeyFrames, ∀ N ∈ d.mpMap.GetAllKeyFrames,
        N ∈ (d.mpMap.keyFrame K).GetCovisiblesByWeight 100 →
          K ∈ (d.mpMap.keyFrame N).GetCovisiblesByWeight 100) →
      B ∈ (d.mpMap.keyFrame A).GetCovisiblesByWeight 100 →
      segmentsBetween EdgeKind.covisibility A B (DrawKeyFrames.segments d.mpMap vpKFs) = 1)
    ∧ ((∀ K ∈ d.mpMap.GetAllKeyFrames, (d.mpMap.keyFrame K).GetLoopEdges.Nodup) →
      (∀ K ∈ d.mpMap.GetAllKeyFrames, ∀ N ∈ d.mpMap.GetAllKeyFrames,
        N ∈ (d.mpMap.keyFrame K).GetLoopEdges → K ∈ (d.mpMap.keyFrame N).GetLoopEdges) →
      B ∈ (d.mpMap.keyFrame A).GetLoopEdges →
      segmentsBetween EdgeKind.loop A B (DrawKeyFrames.segments d.mpMap vpKFs) = 1) := by
  have hA' : A ∈ vpKFs := hperm.mem_iff.2 hA
  have hB' : B ∈ vpKFs := hperm.mem_iff.2 hB
  have hnd' : vpKFs.Nodup := hperm.nodup_iff.2 hnodup
  have hne : (d.mpMap.keyFrame A).mnId ≠ (d.mpMap.keyFrame B).mnId :=
    fun e => hAB (hid A hA B hB e)
  refine ⟨?_, ?_, ?_⟩
  · rw [DrawKeyFrames.graph_only, ← DrawKeyFrames.segmentVertices_of_isPoint d.mpMap hcentre]
    rfl
  · intro hnd hsym hBA
    have hAB' := hsym A hA B hB hBA
    rw [DrawKeyFrames.segmentsBetween_split d.mpMap _ vpKFs hnd' A B hA' hB' hAB,
      DrawKeyFrames.covisibility_of d.mpMap A B hAB (hnd A hA),
      segmentsBetween_comm _ A B (DrawKeyFrames.segmentsOf d.mpMap B),
      DrawKeyFrames.covisibility_of d.mpMap B A (Ne.symm hAB) (hnd B hB)]
    simp only [hBA, hAB', true_and]
    split_ifs <;> omega
  · intro hnd hsym hBA
    have hAB' := hsym A hA B hB hBA
    rw [DrawKeyFrames.segmentsBetween_split d.mpMap _ vpKFs hnd' A B hA' hB' hAB,
      DrawKeyFrames.loop_of d.mpMap A B hAB (hnd A hA),
      segmentsBetween_comm _ A B (DrawKeyFrames.segmentsOf d.mpMap B),
      DrawKeyFrames.loop_of d.mpMap B A (Ne.symm hAB) (hnd B hB)]
    simp only [hBA, hAB', true_and]
    split_ifs <;> omega

/-- Witness of C1 on `graphMap` (camera centre of keyframe k at (k, 2k, 3k)),
traversed in the order 10, 20, 30 instead of the stored order 20, 30, 10: the
emitted segments are 10-20, 10-30, 20-30, 20-10, 30-20 with the camera centres
as endpoints; one of them is a covisibility segment for the pair 10, 20 (the
segment 20-10 is the spanning-tree edge) and one a loop segment for the pair
10, 30. -/
theorem graph_edge_drawn_once_witness :
    DrawKeyFrames
        { Example.graphDrawer with
          mpMap := { Example.graphDrawer.mpMap with GetAllKeyFrames := [10, 20, 30] } }
        false true
      = [glLineWidth 1, glColor4f 0 1 0 0.6, glBegin GL_LINES,
         glVertex3f 10 20 30, glVertex3f 20 40 60,
         glVertex3f 10 20 30, glVertex3f 30 60 90,
         glVertex3f 20 40 60, glVertex3f 30 60 90,
         glVertex3f 20 40 60, glVertex3f 10 20 30,
         glVertex3f 30 60 90, glVertex3f 20 40 60,
         glEnd]
    ∧ segmentsBetween EdgeKind.covisibility 10 20
        (DrawKeyFrames.segments Example.graphMap [10, 20, 30]) = 1
    ∧ segmentsBetween EdgeKind.loop 10 30
        (DrawKeyFrames.segments Example.graphMap [10, 20, 30]) = 1 := by
  refine ⟨?_,
    (graph_edge_drawn_once Example.graphDrawer [10, 20, 30] (by decide) (by decide) (by decide)
      (fun _ => ⟨rfl, rfl⟩) 10 20 (by decide) (by decide) (by decide)).2.1
      (by decide) (by decide) (by decide),
    (graph_edge_drawn_once Example.graphDrawer [10, 20, 30] (by decide) (by decide) (by decide)
      (fun _ => ⟨rfl, rfl⟩) 10 30 (by decide) (by decide) (by decide)).2.2
      (by decide) (by decide) (by decide)⟩
  rw [(graph_edge_drawn_once Example.graphDrawer [10, 20, 30] (by decide) (by decide) (by decide)
      (fun _ => ⟨rfl, rfl⟩) 10 20 (by decide) (by decide) (by decide)).1]
  simp [DrawKeyFrames.segments, DrawKeyFrames.segmentsOf, Example.graphDrawer,
    Example.graphMap, MapDrawer.new, Example.pos]
  norm_num

/-! ### Claims on the camera pose -/

/-- C5. For a stored pose with a top-left 3x3 block `R` and translation `t` in
its right (fourth) column, GetCurrentOpenGLCameraMatrix succeeds and writes
`m[4*c + r] = R[c][r]` for r, c in 0..2, `m[12 + r] = -(Rᵀ t)[r]`,
`m[3] = m[7] = m[11] = 0` and `m[15] = 1`; applied as a column-major 4x4 matrix
to the camera-frame origin (0,0,0,1) it gives the camera centre `-Rᵀ t` (and
homogeneous coordinate 1). -/
theorem GetCurrentOpenGLCameraMatrix_layout [Field α] (d : MapDrawer α) (M : OpenGlMatrix α)
    (hrows : 3 ≤ d.mCameraPose.rows) (hcols : d.mCameraPose.cols = 4) :
    ∃ M', GetCurrentOpenGLCameraMatrix d M = some M'
      ∧ (∀ r c : Fin 3, M'.m (4 * c.val + r.val) = d.mCameraPose.rotation c r)
      ∧ (∀ r : Fin 3, M'.m (12 + r.val) = d.mCameraPose.cameraCentre r)
      ∧ M'.m 3 = 0 ∧ M'.m 7 = 0 ∧ M'.m 11 = 0 ∧ M'.m 15 = 1
      ∧ (∀ r : Fin 3,
          M'.apply (fun i => if i = 3 then 1 else 0) r.val = d.mCameraPose.cameraCentre r)
      ∧ M'.apply (fun i => if i = 3 then 1 else 0) 3 = 1 := by
  obtain ⟨M', hM, m0, m1, m2, m3, m4, m5, m6, m7, m8, m9, m10, m11, m12, m13, m14, m15⟩ :=
    GetCurrentOpenGLCameraMatrix_entries d M hrows (by omega)
  have hc : ∀ r : Fin 3, M'.m (12 + r.val) = d.mCameraPose.cameraCentre r := by
    intro r
    fin_cases r
    · simp [m12, Mat.cameraCentre, Mat.rotation, Mat.translation, Matrix.mulVec,
        Matrix.dotProduct, Fin.sum_univ_three]
      ring
    · simp [m13, Mat.cameraCentre, Mat.rotation, Mat.translation, Matrix.mulVec,
        Matrix.dotProduct, Fin.sum_univ_three]
      ring
    · simp [m14, Mat.cameraCentre, Mat.rotation, Mat.translation, Matrix.mulVec,
        Matrix.dotProduct, Fin.sum_univ_three]
      ring
  refine ⟨M', hM, ?_, hc, m3, m7, m11, m15, ?_, ?_⟩
  · intro r c
    fin_cases r <;> fin_cases c <;> simp [Mat.rotation, m0, m1, m2, m4, m5, m6, m8, m9, m10]
  · intro r
    rw [← hc r]
    simp [OpenGlMatrix.apply]
  · simp [OpenGlMatrix.apply, m15]

/-- Witness of C5 on the quarter-turn pose with translation (1, 2, 3): the
camera centre is (-2, 1, -3). -/
theorem GetCurrentOpenGLCameraMatrix_layout_witness :
    ∃ M', GetCurrentOpenGLCameraMatrix Example.poseDrawer
          Example.zeroMatrix = some M'
      ∧ M'.m 12 = -2 ∧ M'.m 13 = 1 ∧ M'.m 14 = -3 := by
  obtain ⟨M', hM, _, hc, _⟩ :=
    GetCurrentOpenGLCameraMatrix_layout Example.poseDrawer
      Example.zeroMatrix (by decide) (by decide)
  refine ⟨M', hM, ?_, ?_, ?_⟩
  · have h := hc 0
    simpa [Mat.cameraCentre, Mat.rotation, Mat.translation, Matrix.mulVec, Matrix.dotProduct,
      Fin.sum_univ_three, SetCurrentCameraPose, Mat.clone, Example.pose, Example.poseDrawer] using h
  · have h := hc 1
    simpa [Mat.cameraCentre, Mat.rotation, Mat.translation, Matrix.mulVec, Matrix.dotProduct,
      Fin.sum_univ_three, SetCurrentCameraPose, Mat.clone, Example.pose, Example.poseDrawer] using h
  · have h := hc 2
    simpa [Mat.cameraCentre, Mat.rotation, Mat.translation, Matrix.mulVec, Matrix.dotProduct,
      Fin.sum_univ_three, SetCurrentCameraPose, Mat.clone, Example.pose, Example.poseDrawer] using h

/-- C6. For a 4x4 pose `T = [R t; 0 0 0 1]` whose rotation block is orthogonal
(`Rᵀ R = 1`), GetCurrentOpenGLCameraMatrix succeeds and the array it writes,
read as a column-major 4x4 matrix `M`, is the inverse of `T`:
`M * T = 1` and `T * M = 1`. -/
theorem GetCurrentOpenGLCameraMatrix_inverse [Field α] (d : MapDrawer α) (M : OpenGlMatrix α)
    (hrows : d.mCameraPose.rows = 4) (hcols : d.mCameraPose.cols = 4)
    (h30 : d.mCameraPose.data 3 0 = 0) (h31 : d.mCameraPose.data 3 1 = 0)
    (h32 : d.mCameraPose.data 3 2 = 0) (h33 : d.mCameraPose.data 3 3 = 1)
    (horth : Matrix.transpose d.mCameraPose.rotation * d.mCameraPose.rotation = 1) :
    ∃ M', GetCurrentOpenGLCameraMatrix d M = some M'
      ∧ M'.toMatrix * d.mCameraPose.toMatrix4 = 1
      ∧ d.mCameraPose.toMatrix4 * M'.toMatrix = 1 := by
  obtain ⟨M', hM, m0, m1, m2, m3, m4, m5, m6, m7, m8, m9, m10, m11, m12, m13, m14, m15⟩ :=
    GetCurrentOpenGLCameraMatrix_entries d M (by omega) (by omega)
  have horth' : d.mCameraPose.rotation * Matrix.transpose d.mCameraPose.rotation = 1 :=
    Matrix.mul_eq_one_comm.1 horth
  have a : ∀ i j : Fin 3,
      d.mCameraPose.data 0 i.val * d.mCameraPose.data 0 j.val
        + d.mCameraPose.data 1 i.val * d.mCameraPose.data 1 j.val
        + d.mCameraPose.data 2 i.val * d.mCameraPose.data 2 j.val
      = if i = j then 1 else 0 := by
    intro i j
    have h := congrFun (congrFun horth i) j
    simpa [Matrix.mul_apply, Fin.sum_univ_three, Mat.rotation, Matrix.one_apply] using h
  have b : ∀ i j : Fin 3,
      d.mCameraPose.data i.val 0 * d.mCameraPose.data j.val 0
        + d.mCameraPose.data i.val 1 * d.mCameraPose.data j.val 1
        + d.mCameraPose.data i.val 2 * d.mCameraPose.data j.val 2
      = if i = j then 1 else 0 := by
    intro i j
    have h := congrFun (congrFun horth' i) j
    simpa [Matrix.mul_apply, Fin.sum_univ_three, Mat.rotation, Matrix.one_apply] using h
  have a00 := a 0 0
  have a01 := a 0 1
  have a02 := a 0 2
  have a10 := a 1 0
  have a11 := a 1 1
  have a12 := a 1 2
  have a20 := a 2 0
  have a21 := a 2 1
  have a22 := a 2 2
  have b00 := b 0 0
  have b01 := b 0 1
  have b02 := b 0 2
  have b10 := b 1 0
  have b11 := b 1 1
  have b12 := b 1 2
  have b20 := b 2 0
  have b21 := b 2 1
  have b22 := b 2 2
  simp at a00 a01 a02 a10 a11 a12 a20 a21 a22 b00 b01 b02 b10 b11 b12 b20 b21 b22
  have v3 : ((3 : Fin 4) : Nat) = 3 := rfl
  refine ⟨M', hM, ?_, ?_⟩
  · ext i j
    fin_cases i <;> fin_cases j <;>
      simp [Matrix.mul_apply, Fin.sum_univ_four, OpenGlMatrix.toMatrix, Mat.toMatrix4, v3,
        m0, m1, m2, m3, m4, m5, m6, m7, m8, m9, m10, m11, m12, m13, m14, m15,
        h30, h31, h32, h33]
    · linear_combination a00
    · linear_combination a01
    · linear_combination a02
    · ring1
    · linear_combination a10
    · linear_combination a11
    · linear_combination a12
    · ring1
    · linear_combination a20
    · linear_combination a21
    · linear_combination a22
    · ring1
  · ext i j
    fin_cases i <;> fin_cases j <;>
      simp [Matrix.mul_apply, Fin.sum_univ_four, OpenGlMatrix.toMatrix, Mat.toMatrix4, v3,
        m0, m1, m2, m3, m4, m5, m6, m7, m8, m9, m10, m11, m12, m13, m14, m15,
        h30, h31, h32, h33]
    · linear_combination b00
    · linear_combination b01
    · linear_combination b02
    · linear_combination (-d.mCameraPose.data 0 3) * b00 + (-d.mCameraPose.data 1 3) * b01
        + (-d.mCameraPose.data 2 3) * b02
    · linear_combination b10
    · linear_combination b11
    · linear_combination b12
    · linear_combination (-d.mCameraPose.data 0 3) * b10 + (-d.mCameraPose.data 1 3) * b11
        + (-d.mCameraPose.data 2 3) * b12
    · linear_combination b20
    · linear_combination b21
    · linear_combination b22
    · linear_combination (-d.mCameraPose.data 0 3) * b20 + (-d.mCameraPose.data 1 3) * b21
        + (-d.mCameraPose.data 2 3) * b22

/-- Witness of C6 on the quarter-turn pose with translation (1, 2, 3). -/
theorem GetCurrentOpenGLCameraMatrix_inverse_witness :
    ∃ M', GetCurrentOpenGLCameraMatrix Example.poseDrawer Example.zeroMatrix = some M'
      ∧ M'.toMatrix * Example.poseDrawer.mCameraPose.toMatrix4 = 1
      ∧ Example.poseDrawer.mCameraPose.toMatrix4 * M'.toMatrix = 1 :=
  GetCurrentOpenGLCameraMatrix_inverse Example.poseDrawer Example.zeroMatrix rfl rfl
    (by simp [Example.poseDrawer, Example.pose, SetCurrentCameraPose, Mat.clone])
    (by simp [Example.poseDrawer, Example.pose, SetCurrentCameraPose, Mat.clone])
    (by simp [Example.poseDrawer, Example.pose, SetCurrentCameraPose, Mat.clone])
    (by simp [Example.poseDrawer, Example.pose, SetCurrentCameraPose, Mat.clone])
    (by
      ext i j
      fin_cases i <;> fin_cases j <;>
        simp [Matrix.mul_apply, Fin.sum_univ_three, Mat.rotation, Example.poseDrawer,
          Example.pose, SetCurrentCameraPose, Mat.clone])

/-- C7. When the stored camera pose is empty, GetCurrentOpenGLCameraMatrix
succeeds and returns the 16-element identity matrix; this is the case when no
pose has been set since construction, and when an empty pose was set. -/
theorem GetCurrentOpenGLCameraMatrix_unset [Field α] (M : OpenGlMatrix α) :
    (∀ d : MapDrawer α, d.mCameraPose.empty = true →
      ∃ M', GetCurrentOpenGLCameraMatrix d M = some M' ∧ M'.IsIdentity)
    ∧ (∀ (pMap : Map α) (fSettings : String → α) (b : Bool),
      ∃ M', GetCurrentOpenGLCameraMatrix (MapDrawer.new pMap fSettings b) M = some M'
        ∧ M'.IsIdentity)
    ∧ (∀ (d : MapDrawer α) (Tcw : Mat α), Tcw.empty = true →
      ∃ M', GetCurrentOpenGLCameraMatrix (SetCurrentCameraPose d Tcw) M = some M'
        ∧ M'.IsIdentity) := by
  have key : ∀ d : MapDrawer α, d.mCameraPose.empty = true →
      ∃ M', GetCurrentOpenGLCameraMatrix d M = some M' ∧ M'.IsIdentity :=
    fun d h => ⟨_, GetCurrentOpenGLCameraMatrix_of_empty d M h,
      OpenGlMatrix.SetIdentity_isIdentity M⟩
  refine ⟨key, ?_, ?_⟩
  · intro pMap fSettings b
    exact key _ (by simp [MapDrawer.new, Mat.default, Mat.empty])
  · intro d Tcw h
    exact key _ (by simpa [SetCurrentCameraPose, Mat.clone, Mat.empty] using h)

/-- Witness of C7: after an empty 0x4 pose is set, the identity is returned. -/
theorem GetCurrentOpenGLCameraMatrix_unset_witness :
    ∃ M', GetCurrentOpenGLCameraMatrix
            (SetCurrentCameraPose Example.pointDrawer ⟨0, 4, fun _ _ => 7⟩)
            Example.zeroMatrix = some M'
      ∧ M'.IsIdentity :=
  (GetCurrentOpenGLCameraMatrix_unset Example.zeroMatrix).2.2 Example.pointDrawer
    ⟨0, 4, fun _ _ => 7⟩ (by decide)

/-- C8. When the stored pose is the 4x4 identity matrix,
GetCurrentOpenGLCameraMatrix returns the 16-element identity matrix. -/
theorem GetCurrentOpenGLCameraMatrix_identity [Field α] (d : MapDrawer α) (M : OpenGlMatrix α)
    (hrows : d.mCameraPose.rows = 4) (hcols : d.mCameraPose.cols = 4)
    (hdata : ∀ i < 4, ∀ j < 4, d.mCameraPose.data i j = if i = j then 1 else 0) :
    ∃ M', GetCurrentOpenGLCameraMatrix d M = some M' ∧ M'.IsIdentity := by
  obtain ⟨M', hM, m0, m1, m2, m3, m4, m5, m6, m7, m8, m9, m10, m11, m12, m13, m14, m15⟩ :=
    GetCurrentOpenGLCameraMatrix_entries d M (by omega) (by omega)
  have e00 := hdata 0 (by omega) 0 (by omega)
  have e01 := hdata 0 (by omega) 1 (by omega)
  have e02 := hdata 0 (by omega) 2 (by omega)
  have e03 := hdata 0 (by omega) 3 (by omega)
  have e10 := hdata 1 (by omega) 0 (by omega)
  have e11 := hdata 1 (by omega) 1 (by omega)
  have e12 := hdata 1 (by omega) 2 (by omega)
  have e13 := hdata 1 (by omega) 3 (by omega)
  have e20 := hdata 2 (by omega) 0 (by omega)
  have e21 := hdata 2 (by omega) 1 (by omega)
  have e22 := hdata 2 (by omega) 2 (by omega)
  have e23 := hdata 2 (by omega) 3 (by omega)
  refine ⟨M', hM, ?_⟩
  intro i hi
  interval_cases i <;>
    simp [m0, m1, m2, m3, m4, m5, m6, m7, m8, m9, m10, m11, m12, m13, m14, m15, e00, e01, e02,
      e03, e10, e11, e12, e13, e20, e21, e22, e23]

/-- Witness of C8: the identity pose set on a drawer. -/
theorem GetCurrentOpenGLCameraMatrix_identity_witness :
    ∃ M', GetCurrentOpenGLCameraMatrix (SetCurrentCameraPose Example.pointDrawer Mat.eye4)
            Example.zeroMatrix = some M'
      ∧ M'.IsIdentity :=
  GetCurrentOpenGLCameraMatrix_identity (SetCurrentCameraPose Example.pointDrawer Mat.eye4)
    Example.zeroMatrix rfl rfl (fun _ _ _ _ => rfl)

/-! ### The bounding box -/

theorem boxSigns_rows :
    boxSigns 0 = ![-1, -1, -1] ∧ boxSigns 1 = ![1, -1, -1] ∧ boxSigns 2 = ![1, 1, -1]
    ∧ boxSigns 3 = ![-1, 1, -1] ∧ boxSigns 4 = ![-1, -1, 1] ∧ boxSigns 5 = ![1, -1, 1]
    ∧ boxSigns 6 = ![1, 1, 1] ∧ boxSigns 7 = ![-1, 1, 1] := by
  decide

theorem DrawMapObjects.pts_rows [Field α] (axes : Fin 3 → α) :
    DrawMapObjects.pts axes 0 = ![-axes 0, -axes 1, -axes 2]
    ∧ DrawMapObjects.pts axes 1 = ![axes 0, -axes 1, -axes 2]
    ∧ DrawMapObjects.pts axes 2 = ![axes 0, axes 1, -axes 2]
    ∧ DrawMapObjects.pts axes 3 = ![-axes 0, axes 1, -axes 2]
    ∧ DrawMapObjects.pts axes 4 = ![-axes 0, -axes 1, axes 2]
    ∧ DrawMapObjects.pts axes 5 = ![axes 0, -axes 1, axes 2]
    ∧ DrawMapObjects.pts axes 6 = ![axes 0, axes 1, axes 2]
    ∧ DrawMapObjects.pts axes 7 = ![-axes 0, axes 1, axes 2] :=
  ⟨rfl, rfl, rfl, rfl, rfl, rfl, rfl, rfl⟩

theorem DrawMapObjects.pts_eq [Field α] (axes : Fin 3 → α) (i : Fin 8) (k : Fin 3) :
    DrawMapObjects.pts axes i k = (boxSigns i k : α) * axes k := by
  obtain ⟨p0, p1, p2, p3, p4, p5, p6, p7⟩ := DrawMapObjects.pts_rows axes
  obtain ⟨s0, s1, s2, s3, s4, s5, s6, s7⟩ := boxSigns_rows
  fin_cases i <;> fin_cases k <;>
    simp [p0, p1, p2, p3, p4, p5, p6, p7, s0, s1, s2, s3, s4, s5, s6, s7]

theorem DrawMapObjects.obb_eq [Field α] (ell : Ellipsoid α) (i : Fin 8) (j : Fin 3) :
    DrawMapObjects.obb ell i j = boxCorner ell i j := by
  simp only [DrawMapObjects.obb, boxCorner, Matrix.add_apply, Matrix.transpose_apply,
    Matrix.mul_apply, Matrix.of_apply, Matrix.mulVec, Matrix.dotProduct, DrawMapObjects.pts_eq]
  rw [add_comm]

theorem DrawMapObjects.box_eq (obb : Matrix (Fin 8) (Fin 3) α) :
    DrawMapObjects.box obb =
      [glBegin GL_LINE_STRIP]
        ++ boxTraversal.map (fun i => glVertex3f (obb i 0) (obb i 1) (obb i 2))
        ++ [glEnd] := rfl

theorem consecutivePairs_map {β γ : Type} (f : β → γ) (l : List β) :
    consecutivePairs (l.map f) = (consecutivePairs l).map (Prod.map f f) := by
  unfold consecutivePairs
  rw [← List.map_tail, List.zip_map]

theorem undirectedEdges_map {β γ : Type} [DecidableEq β] [DecidableEq γ] (f : β → γ)
    (hf : Function.Injective f) (l : List β) :
    undirectedEdges (l.map f) = (undirectedEdges l).map (Prod.map f f) := by
  have hF : Function.Injective (Prod.map f f) := hf.prodMap hf
  have key : ∀ (ps acc : List (β × β)),
      (ps.map (Prod.map f f)).foldl
          (fun acc e => if e ∈ acc ∨ e.swap ∈ acc then acc else acc ++ [e])
          (acc.map (Prod.map f f))
        = (ps.foldl (fun acc e => if e ∈ acc ∨ e.swap ∈ acc then acc else acc ++ [e]) acc).map
            (Prod.map f f) := by
    intro ps
    induction ps with
    | nil => intro acc; rfl
    | cons e es ih =>
      intro acc
      have h1 : Prod.map f f e ∈ acc.map (Prod.map f f) ↔ e ∈ acc :=
        List.mem_map_of_injective hF
      have h2 : (Prod.map f f e).swap ∈ acc.map (Prod.map f f) ↔ e.swap ∈ acc := by
        have : (Prod.map f f e).swap = Prod.map f f e.swap := rfl
        rw [this]
        exact List.mem_map_of_injective hF
      simp only [List.map_cons, List.foldl_cons, h1, h2]
      by_cases h : e ∈ acc ∨ e.swap ∈ acc
      · rw [if_pos h, if_pos h]
        exact ih acc
      · rw [if_neg h, if_neg h]
        have := ih (acc ++ [e])
        rwa [List.map_append] at this
  unfold undirectedEdges
  rw [consecutivePairs_map]
  exact key _ []

theorem boxSigns_injective : ∀ i j : Fin 8, (∀ k, boxSigns i k = boxSigns j k) → i = j := by
  decide

theorem allSome_map_some {β γ : Type} (f : β → γ) (l : List β) :
    allSome (l.map (fun x => some (f x))) = some (l.map f) := by
  induction l with
  | nil => rfl
  | cons x xs ih => simp [allSome, ih]

/-- With the box flag set DrawMapObjects completes: the header, then for each
object its colour and its box. -/
theorem DrawMapObjects_box [Field α] (d : MapDrawer α) (color_manager : Nat → Scalar α)
    (hbox : d.display_3d_bbox_ = true) :
    DrawMapObjects d color_manager =
      some ([glPointSize d.mPointSize, glLineWidth 2]
        ++ d.mpMap.GetAllMapObjects.flatMap (fun obj =>
          [colourCmd (Resolve color_manager obj d.use_category_cols_)]
            ++ DrawMapObjects.box (DrawMapObjects.obb obj.GetEllipsoid))) := by
  unfold DrawMapObjects
  simp only [hbox, Bool.not_true, Bool.false_eq_true, if_false, Option.map_some']
  rw [allSome_map_some, Option.map_some', List.flatMap_def]
  rfl

/-! ### Claims on the bounding box -/

/-- C9. For every ellipsoid, the bounding-box branch of DrawMapObjects computes
the 8 corners `corner_i = c + R * (s_i . a)` for the sign patterns
`s_0 .. s_7 = (-,-,-), (+,-,-), (+,+,-), (-,+,-), (-,-,+), (+,-,+), (+,+,+),
(-,+,+)`, which are all 8 sign combinations, each once; and it emits one line
strip of exactly 16 vertices, the corners with indices
0,1,2,3,0,4,5,1,5,6,2,6,7,3,7,4 in that order. -/
theorem bounding_box_corners_and_traversal [Field α] (ell : Ellipsoid α) :
    (∀ i j, DrawMapObjects.obb ell i j = boxCorner ell i j)
    ∧ boxSigns = ![![-1, -1, -1], ![1, -1, -1], ![1, 1, -1], ![-1, 1, -1],
                   ![-1, -1, 1], ![1, -1, 1], ![1, 1, 1], ![-1, 1, 1]]
    ∧ (∀ s : Fin 3 → Bool, ∃ i : Fin 8, ∀ k, boxSigns i k = if s k then 1 else -1)
    ∧ (∀ i j : Fin 8, (∀ k, boxSigns i k = boxSigns j k) → i = j)
    ∧ DrawMapObjects.box (DrawMapObjects.obb ell) =
        [glBegin GL_LINE_STRIP]
          ++ ([0, 1, 2, 3, 0, 4, 5, 1, 5, 6, 2, 6, 7, 3, 7, 4] : List (Fin 8)).map
              (fun i => glVertex3f (boxCorner ell i 0) (boxCorner ell i 1) (boxCorner ell i 2))
          ++ [glEnd]
    ∧ (([0, 1, 2, 3, 0, 4, 5, 1, 5, 6, 2, 6, 7, 3, 7, 4] : List (Fin 8)).map
          (fun i => glVertex3f (boxCorner ell i 0) (boxCorner ell i 1) (boxCorner ell i 2))).length
        = 16
    ∧ (∀ (d : MapDrawer α) (color_manager : Nat → Scalar α) (obj : MapObject α),
        DrawMapObjects
            { d with
              display_3d_bbox_ := true
              mpMap := { d.mpMap with GetAllMapObjects := [obj] } }
            color_manager
          = some ([glPointSize d.mPointSize, glLineWidth 2,
             glColor3f
               ((if d.use_category_cols_ then color_manager obj.GetTrack.GetCategoryId
                  else obj.GetTrack.GetColor) 2 / 255)
               ((if d.use_category_cols_ then color_manager obj.GetTrack.GetCategoryId
                  else obj.GetTrack.GetColor) 1 / 255)
               ((if d.use_category_cols_ then color_manager obj.GetTrack.GetCategoryId
                  else obj.GetTrack.GetColor) 0 / 255)]
            ++ DrawMapObjects.box (DrawMapObjects.obb obj.GetEllipsoid))) := by
  refine ⟨DrawMapObjects.obb_eq ell, rfl, by decide, boxSigns_injective, ?_, rfl, ?_⟩
  · rw [DrawMapObjects.box_eq]
    simp only [DrawMapObjects.obb_eq, boxTraversal]
  · intro d color_manager obj
    rw [DrawMapObjects_box _ _ rfl]
    simp [colourCmd, Resolve]

/-- C10. The vertices of the bounding-box line strip are the corners in the
order of the reference traversal. Its 15 consecutive pairs, as undirected pairs
of corner indices, form exactly 12 distinct pairs, and a pair of corners is
consecutive somewhere in the traversal (in either direction) exactly when
their sign patterns differ in exactly one coordinate: every box edge is drawn
and no consecutive pair is a diagonal or a repeated corner. For axes (1,1,1),
identity orientation and centre (0,0,0) the corners are the sign patterns
themselves and the polyline of corner coordinates has 12 distinct undirected
edges. -/
theorem bounding_box_edges [Field α] (obb : Matrix (Fin 8) (Fin 3) α) :
    DrawMapObjects.box obb =
        [glBegin GL_LINE_STRIP]
          ++ boxTraversal.map (fun i => glVertex3f (obb i 0) (obb i 1) (obb i 2))
          ++ [glEnd]
    ∧ boxTraversal.length = 16
    ∧ (consecutivePairs boxTraversal).length = 15
    ∧ (undirectedEdges boxTraversal).length = 12
    ∧ (∀ i j : Fin 8,
        ((i, j) ∈ consecutivePairs boxTraversal ∨ (j, i) ∈ consecutivePairs boxTraversal)
          ↔ signDifference i j = 1)
    ∧ (∀ i j, DrawMapObjects.obb Example.ell i j = (boxSigns i j : ℚ))
    ∧ (undirectedEdges (boxTraversal.map (fun i => DrawMapObjects.obb Example.ell i))).length
        = 12 := by
  have hcorner : ∀ i j, DrawMapObjects.obb Example.ell i j = (boxSigns i j : ℚ) := by
    intro i j
    rw [DrawMapObjects.obb_eq]
    simp [boxCorner, Example.ell, Matrix.one_mulVec]
  have hinj : Function.Injective (fun i => DrawMapObjects.obb Example.ell i) := by
    intro i j hij
    apply boxSigns_injective
    intro k
    have h := congrFun hij k
    simp only [hcorner] at h
    exact_mod_cast h
  refine ⟨rfl, by decide, by decide, by decide, by decide, hcorner, ?_⟩
  rw [undirectedEdges_map _ hinj, List.length_map]
  decide

/-! ### The ellipsoid branch -/

theorem DrawMapObjectsPoints.batch_eq [Field α] (d : MapDrawer α)
    (color_manager : Nat → Scalar α) (size : α) (obj : MapObject α)
    (hpos : ∀ p, (d.mpMap.mapPoint p).GetWorldPos.IsPoint) :
    ([glColor3f
        ((if d.use_category_cols_ then color_manager obj.GetTrack.GetCategoryId
          else obj.GetTrack.GetColor) 2 / 255)
        ((if d.use_category_cols_ then color_manager obj.GetTrack.GetCategoryId
          else obj.GetTrack.GetColor) 1 / 255)
        ((if d.use_category_cols_ then color_manager obj.GetTrack.GetCategoryId
          else obj.GetTrack.GetColor) 0 / 255),
      glPointSize size, glBegin GL_POINTS]
        ++ (DrawMapObjectsPoints.pointsOf d obj).map
            (fun pt => vertexAt (d.mpMap.mapPoint pt).GetWorldPos)
        ++ [glEnd])
      = objectPointBatch d color_manager size obj := by
  have hv : ∀ p, vertexAt (d.mpMap.mapPoint p).GetWorldPos
      = glVertex3f ((d.mpMap.mapPoint p).GetWorldPos.data 0 0)
          ((d.mpMap.mapPoint p).GetWorldPos.data 1 0)
          ((d.mpMap.mapPoint p).GetWorldPos.data 2 0) :=
    fun p => vertexAt_of_isPoint _ (hpos p)
  unfold objectPointBatch DrawMapObjectsPoints.pointsOf colourCmd Resolve
  rw [List.filter_map, List.map_map]
  simp only [hv]
  rfl

theorem DrawMapObjectsPoints_eq [Field α] (d : MapDrawer α)
    (color_manager : Nat → Scalar α) (size : α)
    (hpos : ∀ p, (d.mpMap.mapPoint p).GetWorldPos.IsPoint) :
    DrawMapObjectsPoints d color_manager size
      = if d.mpMap.GetAllMapPoints.isEmpty then []
        else d.mpMap.GetAllMapObjects.flatMap (objectPointBatch d color_manager size) := by
  unfold DrawMapObjectsPoints
  split
  · rfl
  · apply List.flatMap_congr
    intro obj _
    exact DrawMapObjectsPoints.batch_eq d color_manager size obj hpos

/-! ### Claims on object points and colours -/

/-- C12 (as stated, refuted). On a snapshot with one object and an empty
all-points list DrawMapObjectsPoints emits nothing, not one batch for the
object. -/
theorem no_batch_when_no_map_point :
    ¬ (DrawMapObjectsPoints Example.noPointDrawer Example.colours 2
        = Example.noPointDrawer.mpMap.GetAllMapObjects.flatMap
            (objectPointBatch Example.noPointDrawer Example.colours 2)) := by
  have h0 : DrawMapObjectsPoints Example.noPointDrawer Example.colours 2 = [] := by
    simp [DrawMapObjectsPoints, Example.noPointDrawer, Example.noPointMap, MapDrawer.new]
  rw [h0]
  simp [objectPointBatch, Example.noPointDrawer, Example.noPointMap, Example.pointMap,
    MapDrawer.new]

/-- C12 (amended). On a snapshot whose all-points list is not empty and whose
point positions are 3x1 vectors, DrawMapObjectsPoints emits, for every object of
the map in order, one point batch: a `glColor3f` call with the resolved colour
of the object, then one `glVertex3f` call with the coordinates (x, y, z) of the
position of each point of its threshold-10 association query that is not bad,
in query order. On a snapshot whose all-points list is empty it emits
nothing. -/
theorem object_point_batches [Field α] (d : MapDrawer α) (color_manager : Nat → Scalar α)
    (size : α) (hpos : ∀ p, (d.mpMap.mapPoint p).GetWorldPos.IsPoint) :
    (d.mpMap.GetAllMapPoints ≠ [] →
      DrawMapObjectsPoints d color_manager size
        = d.mpMap.GetAllMapObjects.flatMap (fun obj =>
            [colourCmd (Resolve color_manager obj d.use_category_cols_), glPointSize size,
              glBegin GL_POINTS]
              ++ ((obj.GetTrack.GetFilteredAssociatedMapPoints 10).filter
                    (fun pt_cnt => !(d.mpMap.mapPoint pt_cnt.1).isBad)).map
                  (fun pt_cnt =>
                    glVertex3f ((d.mpMap.mapPoint pt_cnt.1).GetWorldPos.data 0 0)
                      ((d.mpMap.mapPoint pt_cnt.1).GetWorldPos.data 1 0)
                      ((d.mpMap.mapPoint pt_cnt.1).GetWorldPos.data 2 0))
              ++ [glEnd])
        ∧ DrawMapObjectsPoints d color_manager size
          = d.mpMap.GetAllMapObjects.flatMap (objectPointBatch d color_manager size))
    ∧ (d.mpMap.GetAllMapPoints = [] → DrawMapObjectsPoints d color_manager size = []) := by
  rw [DrawMapObjectsPoints_eq d color_manager size hpos]
  constructor
  · intro h
    have h' : d.mpMap.GetAllMapPoints.isEmpty = false := by
      simpa [List.isEmpty_iff] using h
    rw [h']
    exact ⟨rfl, rfl⟩
  · intro h
    simp [h]

/-- Witness of C12 (amended): on `spreadMap` the single object, associated with
the points 3, 1 (bad) and 2, gets one batch in its category colour holding the
positions of the points 3 and 2, in this order; on `noPointMap` nothing is
emitted. -/
theorem object_point_batches_witness :
    DrawMapObjectsPoints Example.spreadDrawer Example.colours 2
        = [glColor3f 0 0 1, glPointSize 2, glBegin GL_POINTS,
           glVertex3f 3 30 300, glVertex3f 2 20 200, glEnd]
    ∧ DrawMapObjectsPoints Example.noPointDrawer Example.colours 2 = [] := by
  refine ⟨?_, (object_point_batches Example.noPointDrawer Example.colours 2
    (fun _ => ⟨rfl, rfl⟩)).2 rfl⟩
  rw [((object_point_batches Example.spreadDrawer Example.colours 2
    (fun _ => ⟨rfl, rfl⟩)).1 (by decide)).1]
  simp [colourCmd, Resolve, Example.spreadDrawer, Example.spreadMap,
    Example.spreadObj, MapDrawer.new, Example.pos, Example.colours]
  norm_num

/-! ### Claims on the frustum -/

/-- C13. For every size, the frustum drawn for each keyframe by DrawKeyFrames
(with the keyframe size) and the frustum drawn by DrawCurrentCamera (with the
camera size) are the same 16-vertex sequence `F(w)`, with `h = 0.75 w` and
`z = 0.6 w`: 8 segments, 4 from the apex (0,0,0) to each of the four base
corners `(±w, ±h, z)` and 4 along the sides of the base rectangle, each side
once. For `w = 2`, `h = 1.5` and `z = 1.2`. -/
theorem frustum_shared [Field α] (d : MapDrawer α) :
    (∀ (HAVE_GLES : Bool) (Twc : OpenGlMatrix α),
      DrawCurrentCamera d HAVE_GLES Twc =
        [glPushMatrix,
         (if HAVE_GLES then glMultMatrixf ((List.range 16).map Twc.m)
          else glMultMatrixd ((List.range 16).map Twc.m)),
         glLineWidth d.mCameraLineWidth, glColor3f 0 1 0, glBegin GL_LINES]
          ++ (frustumVertices d.mCameraSize).map vertexCmd
          ++ [glEnd, glPopMatrix])
    ∧ DrawKeyFrames d true false =
        d.mpMap.GetAllKeyFrames.flatMap (fun pKF =>
          [glPushMatrix, glMultMatrixf (d.mpMap.keyFrame pKF).GetPoseInverse.t.ptr16,
           glLineWidth d.mKeyFrameLineWidth, glColor3f 0 0 1, glBegin GL_LINES]
            ++ (frustumVertices d.mKeyFrameSize).map vertexCmd
            ++ [glEnd, glPopMatrix])
    ∧ (∀ w : α, (frustumVertices w).length = 16)
    ∧ frustumSegments.length = 8
    ∧ (∀ c : Bool × Bool, frustumSegments.count (none, some c) = 1)
    ∧ (∀ a b : Bool × Bool, isBaseSide a b = true →
        frustumSegments.count (some a, some b) + frustumSegments.count (some b, some a) = 1)
    ∧ (∀ s ∈ frustumSegments,
        (s.1 = none ∧ s.2 ≠ none)
          ∨ (∃ a b : Bool × Bool, s = (some a, some b) ∧ isBaseSide a b = true))
    ∧ frustumVertices (2 : ℚ) =
        [(0, 0, 0), (2, 1.5, 1.2), (0, 0, 0), (2, -1.5, 1.2),
         (0, 0, 0), (-2, -1.5, 1.2), (0, 0, 0), (-2, 1.5, 1.2),
         (2, 1.5, 1.2), (2, -1.5, 1.2), (-2, 1.5, 1.2), (-2, -1.5, 1.2),
         (-2, 1.5, 1.2), (2, 1.5, 1.2), (-2, -1.5, 1.2), (2, -1.5, 1.2)] := by
  refine ⟨?_, ?_, ?_, by decide, by decide, by decide, by decide, ?_⟩
  · intro HAVE_GLES Twc
    simp [DrawCurrentCamera, frustumVertices, frustumSegments, frustumPoint, vertexCmd,
      mul_comm]
  · simp [DrawKeyFrames, frustumVertices, frustumSegments, frustumPoint, vertexCmd, mul_comm]
  · intro w
    simp [frustumVertices, frustumSegments]
  · simp [frustumVertices, frustumSegments, frustumPoint]
    norm_num

/-- Witness of C13: the side of the base joining the corners `(-w, h, z)` and
`(w, h, z)` is emitted once. -/
theorem frustum_shared_witness :
    frustumSegments.count (some (false, true), some (true, true))
      + frustumSegments.count (some (true, true), some (false, true)) = 1 :=
  (frustum_shared Example.pointDrawer).2.2.2.2.2.1 (false, true) (true, true) (by decide)

/-! ### Vertices and colours of a call list -/

theorem vertices_append (l₁ l₂ : List (GLCmd α)) :
    vertices (l₁ ++ l₂) = vertices l₁ ++ vertices l₂ := by
  induction l₁ with
  | nil => rfl
  | cons c cs ih => cases c <;> simp [vertices, ih]

theorem withoutColours_append (l₁ l₂ : List (GLCmd α)) :
    withoutColours (l₁ ++ l₂) = withoutColours l₁ ++ withoutColours l₂ := by
  induction l₁ with
  | nil => rfl
  | cons c cs ih => cases c <;> simp [withoutColours, ih]

theorem withoutColours_flatMap {β : Type} (l : List β) (f : β → List (GLCmd α)) :
    withoutColours (l.flatMap f) = l.flatMap (fun b => withoutColours (f b)) := by
  induction l with
  | nil => rfl
  | cons b bs ih => simp [List.flatMap_cons, withoutColours_append, ih]

theorem vertices_flatMap {β : Type} (l : List β) (f : β → List (GLCmd α)) :
    vertices (l.flatMap f) = l.flatMap (fun b => vertices (f b)) := by
  induction l with
  | nil => rfl
  | cons b bs ih => simp [List.flatMap_cons, vertices_append, ih]

theorem vertices_box (obb : Matrix (Fin 8) (Fin 3) α) :
    vertices (DrawMapObjects.box obb) = boxTraversal.map (fun i => (obb i 0, obb i 1, obb i 2)) :=
  rfl

/-- The box call list of DrawMapObjects without its colour calls does not
depend on the colours. -/
theorem DrawMapObjects.withoutColours_box [Field α] (header : List (GLCmd α))
    (objs : List (MapObject α)) (colour : MapObject α → α × α × α) :
    withoutColours (header
        ++ objs.flatMap (fun obj =>
          [colourCmd (colour obj)] ++ DrawMapObjects.box (DrawMapObjects.obb obj.GetEllipsoid)))
      = withoutColours header
        ++ objs.flatMap (fun obj =>
          withoutColours (DrawMapObjects.box (DrawMapObjects.obb obj.GetEllipsoid))) := by
  rw [withoutColours_append, withoutColours_flatMap]
  simp only [withoutColours_append]
  rfl

/-- The vertices of the box call list of DrawMapObjects do not depend on the
colours. -/
theorem DrawMapObjects.vertices_box_list [Field α] (objs : List (MapObject α))
    (colour : MapObject α → α × α × α) (size : α) :
    vertices ([glPointSize size, glLineWidth 2]
        ++ objs.flatMap (fun obj =>
          [colourCmd (colour obj)] ++ DrawMapObjects.box (DrawMapObjects.obb obj.GetEllipsoid)))
      = objs.flatMap (fun obj =>
          vertices (DrawMapObjects.box (DrawMapObjects.obb obj.GetEllipsoid))) := by
  rw [vertices_append, vertices_flatMap]
  simp only [vertices_append]
  rfl

/-- The corners of the box of an ellipsoid with an orthogonal orientation and
non-zero axes are pairwise distinct. -/
theorem DrawMapObjects.obb_injective [Field α] [CharZero α] (ell : Ellipsoid α)
    (hR : Matrix.transpose ell.GetOrientation * ell.GetOrientation = 1)
    (ha : ∀ k, ell.GetAxes k ≠ 0) :
    Function.Injective
      (fun i : Fin 8 => (DrawMapObjects.obb ell i 0, DrawMapObjects.obb ell i 1,
        DrawMapObjects.obb ell i 2)) := by
  intro i j hij
  simp only [Prod.mk.injEq, DrawMapObjects.obb_eq, boxCorner, add_right_inj] at hij
  have hvec : Matrix.mulVec ell.GetOrientation (fun k => (boxSigns i k : α) * ell.GetAxes k)
      = Matrix.mulVec ell.GetOrientation (fun k => (boxSigns j k : α) * ell.GetAxes k) := by
    funext r
    fin_cases r
    · exact hij.1
    · exact hij.2.1
    · exact hij.2.2
  have hcancel := congrArg (Matrix.mulVec (Matrix.transpose ell.GetOrientation)) hvec
  rw [Matrix.mulVec_mulVec, Matrix.mulVec_mulVec, hR, Matrix.one_mulVec,
    Matrix.one_mulVec] at hcancel
  apply boxSigns_injective
  intro k
  have hk := congrFun hcancel k
  have hk' := mul_right_cancel₀ (ha k) hk
  exact_mod_cast hk'

theorem occurrences_map {β γ : Type} [DecidableEq β] [DecidableEq γ] (f : β → γ)
    (hf : Function.Injective f) (l : List β) (x : β) :
    occurrences (f x) (l.map f) = occurrences x l := by
  unfold occurrences
  rw [List.filter_map, List.length_map]
  congr 1
  apply List.filter_congr
  intro i _
  simp [hf.eq_iff]

/-! ### Claims on the colours and the box vertices -/

/-- C14. With bounding-box display enabled, the vertex sequence emitted by
DrawMapObjects (indeed its whole call list apart from the colour calls) is the
same whether category colours are used or not, for every list of objects and
every colour table. For one object with axes (1, 2, 3) and an orthogonal
orientation it consists of exactly 16 vertices taken from exactly 8 distinct
corner coordinates. -/
theorem box_vertices_independent_of_colours [Field α] [CharZero α] [DecidableEq α]
    (d : MapDrawer α) (color_manager color_manager' : Nat → Scalar α) :
    (∃ l₁ l₂ : List (GLCmd α),
      DrawMapObjects { d with display_3d_bbox_ := true, use_category_cols_ := true }
          color_manager = some l₁
      ∧ DrawMapObjects { d with display_3d_bbox_ := true, use_category_cols_ := false }
          color_manager' = some l₂
      ∧ withoutColours l₁ = withoutColours l₂
      ∧ vertices l₁ = vertices l₂)
    ∧ (∀ (obj : MapObject α) (useCategoryColor : Bool),
        obj.GetEllipsoid.GetAxes = ![1, 2, 3] →
        Matrix.transpose obj.GetEllipsoid.GetOrientation * obj.GetEllipsoid.GetOrientation = 1 →
        ∃ l : List (GLCmd α),
          DrawMapObjects
              { d with
                display_3d_bbox_ := true
                use_category_cols_ := useCategoryColor
                mpMap := { d.mpMap with GetAllMapObjects := [obj] } }
              color_manager = some l
          ∧ (vertices l).length = 16
          ∧ (vertices l).dedup.length = 8) := by
  refine ⟨⟨_, _, DrawMapObjects_box _ _ rfl, DrawMapObjects_box _ _ rfl, ?_, ?_⟩, ?_⟩
  · rw [DrawMapObjects.withoutColours_box, DrawMapObjects.withoutColours_box]
  · rw [DrawMapObjects.vertices_box_list, DrawMapObjects.vertices_box_list]
  · intro obj useCategoryColor haxes hR
    have ha : ∀ k, obj.GetEllipsoid.GetAxes k ≠ 0 := by
      intro k
      rw [haxes]
      fin_cases k <;> simp
    have hinj := DrawMapObjects.obb_injective obj.GetEllipsoid hR ha
    refine ⟨_, DrawMapObjects_box _ _ rfl, ?_⟩
    rw [DrawMapObjects.vertices_box_list]
    simp only [List.flatMap_cons, List.flatMap_nil, List.append_nil, vertices_box]
    rw [List.dedup_map_of_injective hinj, List.length_map, List.length_map]
    exact ⟨by decide, by decide⟩

/-- Witness of C14: the box with axes (1, 2, 3), identity orientation and
centre (0, 0, 0). -/
theorem box_vertices_independent_of_colours_witness :
    ∃ l : List (GLCmd ℚ),
      DrawMapObjects
          { Example.pointDrawer with
            display_3d_bbox_ := true
            use_category_cols_ := true
            mpMap :=
              { Example.pointDrawer.mpMap with
                GetAllMapObjects := [⟨Example.obj.GetTrack, Example.ell123⟩] } }
          Example.colours = some l
      ∧ (vertices l).length = 16
      ∧ (vertices l).dedup.length = 8 :=
  (box_vertices_independent_of_colours Example.pointDrawer Example.colours Example.colours).2
    ⟨Example.obj.GetTrack, Example.ell123⟩ true rfl (by simp [Example.ell123])

/-- The vertices emitted by DrawMapObjects for the unit box of `pointMap`. -/
theorem Example.unit_box_vertices :
    ∃ l : List (GLCmd ℚ),
      DrawMapObjects Example.pointDrawer Example.colours = some l
      ∧ vertices l = boxTraversal.map (fun i => (DrawMapObjects.obb Example.ell i 0,
          DrawMapObjects.obb Example.ell i 1, DrawMapObjects.obb Example.ell i 2)) := by
  refine ⟨_, DrawMapObjects_box _ _ rfl, ?_⟩
  rw [DrawMapObjects.vertices_box_list]
  simp [vertices_box, Example.pointDrawer, Example.pointMap, Example.obj, MapDrawer.new]

/-- C17 (as stated, refuted). For the box with axes (1, 1, 1), identity
orientation and centre (0, 0, 0), DrawMapObjects completes and the corner
(-1, -1, -1) occurs twice, not once, among the vertices it emits. -/
theorem corner_visited_twice :
    ∃ l : List (GLCmd ℚ),
      DrawMapObjects Example.pointDrawer Example.colours = some l
      ∧ occurrences ((-1 : ℚ), (-1 : ℚ), (-1 : ℚ)) (vertices l) = 2
      ∧ ¬ occurrences ((-1 : ℚ), (-1 : ℚ), (-1 : ℚ)) (vertices l) = 1 := by
  have hinj := DrawMapObjects.obb_injective Example.ell (by simp [Example.ell])
    (by intro k; simp [Example.ell])
  obtain ⟨l₀, hl₀, hv⟩ := Example.unit_box_vertices
  have h0 : ((-1 : ℚ), (-1 : ℚ), (-1 : ℚ))
      = (fun i => (DrawMapObjects.obb Example.ell i 0, DrawMapObjects.obb Example.ell i 1,
          DrawMapObjects.obb Example.ell i 2)) (0 : Fin 8) := by
    simp [DrawMapObjects.obb_eq, boxCorner, Example.ell, Matrix.one_mulVec, boxSigns]
  have h2 : occurrences ((-1 : ℚ), (-1 : ℚ), (-1 : ℚ)) (vertices l₀) = 2 := by
    rw [hv, h0]
    exact (occurrences_map _ hinj boxTraversal (0 : Fin 8)).trans (by decide)
  refine ⟨l₀, hl₀, h2, ?_⟩
  rw [h2]
  decide

/-- C17 (amended). For the box with axes (1, 1, 1), identity orientation and
centre (0, 0, 0), the corners are the 8 sign combinations of (±1, ±1, ±1) and
each of them occurs exactly twice among the 16 vertices emitted by
DrawMapObjects. -/
theorem each_corner_visited_twice :
    (∀ i j, DrawMapObjects.obb Example.ell i j = (boxSigns i j : ℚ))
    ∧ (∃ l : List (GLCmd ℚ),
        DrawMapObjects Example.pointDrawer Example.colours = some l
        ∧ (vertices l).length = 16
        ∧ (∀ i : Fin 8,
            occurrences ((boxSigns i 0 : ℚ), (boxSigns i 1 : ℚ), (boxSigns i 2 : ℚ))
              (vertices l) = 2))
    ∧ (∀ s : Fin 3 → Bool, ∃ i : Fin 8, ∀ k, boxSigns i k = if s k then 1 else -1) := by
  have hcorner : ∀ i j, DrawMapObjects.obb Example.ell i j = (boxSigns i j : ℚ) := by
    intro i j
    rw [DrawMapObjects.obb_eq]
    simp [boxCorner, Example.ell, Matrix.one_mulVec]
  have hinj := DrawMapObjects.obb_injective Example.ell (by simp [Example.ell])
    (by intro k; simp [Example.ell])
  obtain ⟨l₀, hl₀, hv⟩ := Example.unit_box_vertices
  refine ⟨hcorner, ⟨l₀, hl₀, ?_, ?_⟩, by decide⟩
  · rw [hv, List.length_map]
    decide
  · intro i
    have hi : ((boxSigns i 0 : ℚ), (boxSigns i 1 : ℚ), (boxSigns i 2 : ℚ))
        = (fun i => (DrawMapObjects.obb Example.ell i 0, DrawMapObjects.obb Example.ell i 1,
            DrawMapObjects.obb Example.ell i 2)) i := by
      simp only [hcorner]
    have hcount : ∀ i : Fin 8, occurrences i boxTraversal = 2 := by decide
    rw [hv, hi]
    exact (occurrences_map _ hinj boxTraversal i).trans (hcount i)

/-- C15. For every object, DrawMapObjects and DrawMapObjectsPoints both issue
the colour `(c[2]/255, c[1]/255, c[0]/255)`, where `c` is the entry of the
category-colour table for the category of the object when category colours are
enabled and the colour of the object otherwise: the two routines resolve the
same colour for the same object and flag. When every channel of `c` lies in
[0, 255], every output channel lies in [0, 1]. -/
theorem colour_resolved_alike [LinearOrderedField α] (d : MapDrawer α)
    (color_manager : Nat → Scalar α) (size : α) :
    DrawMapObjects d color_manager =
        (allSome (d.mpMap.GetAllMapObjects.map (fun obj =>
            (if !d.display_3d_bbox_ then
                DrawMapObjects.strips obj.GetEllipsoid.GeneratePointCloudRows
                  obj.GetEllipsoid.GeneratePointCloud 0
              else some (DrawMapObjects.box (DrawMapObjects.obb obj.GetEllipsoid))).map
              (fun geometry =>
                [colourCmd (Resolve color_manager obj d.use_category_cols_)] ++ geometry)))).map
          (fun calls => [glPointSize d.mPointSize, glLineWidth 2] ++ calls.flatten)
    ∧ (d.display_3d_bbox_ = true →
        DrawMapObjects d color_manager =
          some ([glPointSize d.mPointSize, glLineWidth 2]
            ++ d.mpMap.GetAllMapObjects.flatMap (fun obj =>
              [colourCmd (Resolve color_manager obj d.use_category_cols_)]
                ++ DrawMapObjects.box (DrawMapObjects.obb obj.GetEllipsoid))))
    ∧ DrawMapObjectsPoints d color_manager size =
        (if d.mpMap.GetAllMapPoints.isEmpty then []
         else d.mpMap.GetAllMapObjects.flatMap (fun obj =>
            [colourCmd (Resolve color_manager obj d.use_category_cols_), glPointSize size,
              glBegin GL_POINTS]
              ++ (DrawMapObjectsPoints.pointsOf d obj).map
                  (fun pt => vertexAt (d.mpMap.mapPoint pt).GetWorldPos)
              ++ [glEnd]))
    ∧ (∀ obj : MapObject α,
        Resolve color_manager obj true
          = (color_manager obj.GetTrack.GetCategoryId 2 / 255,
             color_manager obj.GetTrack.GetCategoryId 1 / 255,
             color_manager obj.GetTrack.GetCategoryId 0 / 255)
        ∧ Resolve color_manager obj false
          = (obj.GetTrack.GetColor 2 / 255, obj.GetTrack.GetColor 1 / 255,
             obj.GetTrack.GetColor 0 / 255))
    ∧ (∀ (obj : MapObject α) (useCategoryColor : Bool),
        (∀ i : Fin 4,
          0 ≤ (if useCategoryColor then color_manager obj.GetTrack.GetCategoryId
                else obj.GetTrack.GetColor) i
          ∧ (if useCategoryColor then color_manager obj.GetTrack.GetCategoryId
                else obj.GetTrack.GetColor) i ≤ 255) →
        (0 ≤ (Resolve color_manager obj useCategoryColor).1
          ∧ (Resolve color_manager obj useCategoryColor).1 ≤ 1)
        ∧ (0 ≤ (Resolve color_manager obj useCategoryColor).2.1
          ∧ (Resolve color_manager obj useCategoryColor).2.1 ≤ 1)
        ∧ (0 ≤ (Resolve color_manager obj useCategoryColor).2.2
          ∧ (Resolve color_manager obj useCategoryColor).2.2 ≤ 1)) := by
  refine ⟨rfl, DrawMapObjects_box d color_manager, rfl, fun obj => ⟨rfl, rfl⟩, ?_⟩
  intro obj useCategoryColor hc
  have h255 : (0 : α) < 255 := by norm_num
  have key : ∀ x : α, 0 ≤ x ∧ x ≤ 255 → 0 ≤ x / 255 ∧ x / 255 ≤ 1 := by
    intro x hx
    exact ⟨div_nonneg hx.1 h255.le, (div_le_one h255).2 hx.2⟩
  exact ⟨key _ (hc 2), key _ (hc 1), key _ (hc 0)⟩

/-- Witness of C15: the table colour (255, 0, 0, 0) resolves to (0, 0, 1),
whose channels lie in [0, 1]. -/
theorem colour_resolved_alike_witness :
    Resolve Example.colours Example.obj true = (0, 0, 1)
    ∧ ((0 : ℚ) ≤ (Resolve Example.colours Example.obj true).1
        ∧ (Resolve Example.colours Example.obj true).1 ≤ 1)
    ∧ ((0 : ℚ) ≤ (Resolve Example.colours Example.obj true).2.1
        ∧ (Resolve Example.colours Example.obj true).2.1 ≤ 1)
    ∧ ((0 : ℚ) ≤ (Resolve Example.colours Example.obj true).2.2
        ∧ (Resolve Example.colours Example.obj true).2.2 ≤ 1) :=
  ⟨by simp [Resolve, Example.colours],
   (colour_resolved_alike Example.pointDrawer Example.colours 2).2.2.2.2 Example.obj true
     (by
       intro i
       fin_cases i <;> simp [Example.colours])⟩

/-! ### The distance segment -/

theorem DrawDistanceEstimation_eq [Field α]
    (cvToEigenMatrix : Mat α → Matrix (Fin 4) (Fin 4) α) (depth : α) (Tcw : Mat α)
    (hcols : Tcw.cols = 4) :
    DrawDistanceEstimation cvToEigenMatrix depth Tcw =
      [glColor3f 0 0 1, glBegin GL_LINE_STRIP,
       vertexCmd (point3 (segmentStart
         ((cvToEigenMatrix Tcw).submatrix Fin.castSucc Fin.castSucc)
         (fun i => cvToEigenMatrix Tcw (Fin.castSucc i) 3))),
       vertexCmd (point3 (segmentEnd
         ((cvToEigenMatrix Tcw).submatrix Fin.castSucc Fin.castSucc)
         (fun i => cvToEigenMatrix Tcw (Fin.castSucc i) 3) depth)),
       glEnd] := by
  unfold DrawDistanceEstimation
  rw [if_neg (by simp [hcols])]
  simp only [vertexCmd, point3, segmentEnd, segmentStart, Matrix.neg_mulVec]

/-! ### Claims on the distance segment -/

/-- C16. DrawDistanceEstimation emits nothing when the pose does not have
exactly 4 columns. Otherwise, with `R` the rotation block and `t` the
translation of the converted pose, it emits one line strip of exactly two
vertices: `p = -Rᵀ t`, then `e = p + depth * (third column of Rᵀ)`. When the
conversion copies the entries of the pose, `R` and `t` are the blocks of the
pose and `p` is its camera centre. -/
theorem distance_segment_endpoints [Field α]
    (cvToEigenMatrix : Mat α → Matrix (Fin 4) (Fin 4) α) (depth : α) (Tcw : Mat α) :
    (Tcw.cols ≠ 4 → DrawDistanceEstimation cvToEigenMatrix depth Tcw = [])
    ∧ (Tcw.cols = 4 →
        DrawDistanceEstimation cvToEigenMatrix depth Tcw =
          [glColor3f 0 0 1, glBegin GL_LINE_STRIP,
           vertexCmd (point3 (segmentStart
             ((cvToEigenMatrix Tcw).submatrix Fin.castSucc Fin.castSucc)
             (fun i => cvToEigenMatrix Tcw (Fin.castSucc i) 3))),
           vertexCmd (point3 (segmentEnd
             ((cvToEigenMatrix Tcw).submatrix Fin.castSucc Fin.castSucc)
             (fun i => cvToEigenMatrix Tcw (Fin.castSucc i) 3) depth)),
           glEnd]
        ∧ vertices (DrawDistanceEstimation cvToEigenMatrix depth Tcw) =
          [point3 (segmentStart
             ((cvToEigenMatrix Tcw).submatrix Fin.castSucc Fin.castSucc)
             (fun i => cvToEigenMatrix Tcw (Fin.castSucc i) 3)),
           point3 (segmentEnd
             ((cvToEigenMatrix Tcw).submatrix Fin.castSucc Fin.castSucc)
             (fun i => cvToEigenMatrix Tcw (Fin.castSucc i) 3) depth)])
    ∧ (Tcw.cols = 4 →
        vertices (DrawDistanceEstimation Mat.toMatrix4 depth Tcw) =
          [point3 Tcw.cameraCentre,
           point3 (segmentEnd Tcw.rotation Tcw.translation depth)]) := by
  refine ⟨?_, ?_, ?_⟩
  · intro h
    unfold DrawDistanceEstimation
    rw [if_pos h]
  · intro h
    rw [DrawDistanceEstimation_eq cvToEigenMatrix depth Tcw h]
    exact ⟨rfl, rfl⟩
  · intro h
    rw [DrawDistanceEstimation_eq Mat.toMatrix4 depth Tcw h]
    rfl

/-- Witness of C16 on the quarter-turn pose with translation (1, 2, 3) and
depth 2: the segment runs from (-2, 1, -3) to (-2, 1, -1); a 3-column matrix
gives nothing. -/
theorem distance_segment_endpoints_witness :
    vertices (DrawDistanceEstimation Mat.toMatrix4 2 Example.pose)
        = [((-2 : ℚ), (1 : ℚ), (-3 : ℚ)), ((-2 : ℚ), (1 : ℚ), (-1 : ℚ))]
    ∧ DrawDistanceEstimation Mat.toMatrix4 (2 : ℚ) ⟨3, 3, fun _ _ => 0⟩ = [] := by
  refine ⟨?_, (distance_segment_endpoints Mat.toMatrix4 (2 : ℚ) ⟨3, 3, fun _ _ => 0⟩).1
    (by decide)⟩
  rw [(distance_segment_endpoints Mat.toMatrix4 (2 : ℚ) Example.pose).2.2 rfl]
  simp [point3, segmentEnd, segmentStart, Mat.cameraCentre, Mat.rotation, Mat.translation,
    Matrix.mulVec, Matrix.dotProduct, Fin.sum_univ_three, Example.pose]
  norm_num

/-- C19. For a 4-column pose whose rotation block `R` (of the converted pose)
is orthogonal, `Rᵀ R = 1`, and every depth `d`, the two endpoints `p`, `e`
emitted by DrawDistanceEstimation satisfy `e - p = d * Rᵀ (0,0,1)ᵀ` and
`|e - p|² = d²`. -/
theorem distance_segment_along_viewing_axis [Field α]
    (cvToEigenMatrix : Mat α → Matrix (Fin 4) (Fin 4) α) (depth : α) (Tcw : Mat α)
    (hcols : Tcw.cols = 4)
    (horth : Matrix.transpose ((cvToEigenMatrix Tcw).submatrix Fin.castSucc Fin.castSucc)
      * (cvToEigenMatrix Tcw).submatrix Fin.castSucc Fin.castSucc = 1) :
    ∃ p e : Fin 3 → α,
      vertices (DrawDistanceEstimation cvToEigenMatrix depth Tcw) = [point3 p, point3 e]
      ∧ e - p = depth • Matrix.mulVec
          (Matrix.transpose ((cvToEigenMatrix Tcw).submatrix Fin.castSucc Fin.castSucc))
          ![0, 0, 1]
      ∧ (e 0 - p 0) ^ 2 + (e 1 - p 1) ^ 2 + (e 2 - p 2) ^ 2 = depth ^ 2 := by
  have horth' := Matrix.mul_eq_one_comm.1 horth
  have h22 := congrFun (congrFun horth' 2) 2
  simp only [Matrix.mul_apply, Fin.sum_univ_three, Matrix.transpose_apply,
    Matrix.one_apply_eq] at h22
  refine ⟨segmentStart ((cvToEigenMatrix Tcw).submatrix Fin.castSucc Fin.castSucc)
      (fun i => cvToEigenMatrix Tcw (Fin.castSucc i) 3),
    segmentEnd ((cvToEigenMatrix Tcw).submatrix Fin.castSucc Fin.castSucc)
      (fun i => cvToEigenMatrix Tcw (Fin.castSucc i) 3) depth, ?_, ?_, ?_⟩
  · rw [DrawDistanceEstimation_eq cvToEigenMatrix depth Tcw hcols]
    rfl
  · funext i
    simp [segmentEnd, Matrix.mulVec, Matrix.dotProduct, Fin.sum_univ_three]
  · simp only [segmentEnd, Pi.add_apply, Pi.smul_apply, smul_eq_mul, add_sub_cancel_left,
      Matrix.transpose_apply]
    linear_combination depth ^ 2 * h22

/-- Witness of C19 on the quarter-turn pose with translation (1, 2, 3) and
depth 2: the squared length of the segment is 4. -/
theorem distance_segment_along_viewing_axis_witness :
    ∃ p e : Fin 3 → ℚ,
      vertices (DrawDistanceEstimation Mat.toMatrix4 2 Example.pose) = [point3 p, point3 e]
      ∧ e - p = (2 : ℚ) • Matrix.mulVec
          (Matrix.transpose ((Mat.toMatrix4 Example.pose).submatrix Fin.castSucc Fin.castSucc))
          ![0, 0, 1]
      ∧ (e 0 - p 0) ^ 2 + (e 1 - p 1) ^ 2 + (e 2 - p 2) ^ 2 = (2 : ℚ) ^ 2 :=
  distance_segment_along_viewing_axis Mat.toMatrix4 2 Example.pose rfl
    (by
      ext i j
      fin_cases i <;> fin_cases j <;>
        simp [Matrix.mul_apply, Fin.sum_univ_three, Mat.toMatrix4, Example.pose])

/-! ### The segments of the graph pass -/

theorem DrawKeyFrames.segmentsOf_eq_expected (mp : Map α) (K : KeyFramePtr) :
    DrawKeyFrames.segmentsOf mp K = expectedSegmentsOf mp K := by
  unfold DrawKeyFrames.segmentsOf expectedSegmentsOf
  have hf : ∀ l : List KeyFramePtr,
      l.filter (fun N => !decide ((mp.keyFrame N).mnId < (mp.keyFrame K).mnId))
        = l.filter (fun N => decide ((mp.keyFrame K).mnId ≤ (mp.keyFrame N).mnId)) := by
    intro l
    apply List.filter_congr
    intro N _
    by_cases h : (mp.keyFrame N).mnId < (mp.keyFrame K).mnId
    · simp [h]
    · simp [h, Nat.le_of_not_lt h]
  have hp : (match (mp.keyFrame K).GetParent with
      | some pParent => [GraphSegment.mk EdgeKind.spanningTree K pParent]
      | none => [])
      = (mp.keyFrame K).GetParent.toList.map
          (fun P => GraphSegment.mk EdgeKind.spanningTree K P) := by
    cases (mp.keyFrame K).GetParent <;> rfl
  have hc : (if (!((mp.keyFrame K).GetCovisiblesByWeight 100).isEmpty) = true then
        (((mp.keyFrame K).GetCovisiblesByWeight 100).filter
            (fun vit => !decide ((mp.keyFrame vit).mnId < (mp.keyFrame K).mnId))).map
          (fun vit => GraphSegment.mk EdgeKind.covisibility K vit)
      else [])
      = (((mp.keyFrame K).GetCovisiblesByWeight 100).filter
            (fun N => decide ((mp.keyFrame K).mnId ≤ (mp.keyFrame N).mnId))).map
          (fun N => GraphSegment.mk EdgeKind.covisibility K N) := by
    rw [← hf]
    cases (mp.keyFrame K).GetCovisiblesByWeight 100 with
    | nil => rfl
    | cons x xs => rfl
  dsimp only
  rw [hc, hp, hf]

theorem expectedSegmentsOf_tree_count (mp : Map α) (K : KeyFramePtr) :
    ((expectedSegmentsOf mp K).filter (fun s => decide (s.kind = EdgeKind.spanningTree))).length
      = if (mp.keyFrame K).GetParent.isSome then 1 else 0 := by
  unfold expectedSegmentsOf
  have h1 : ∀ (l : List KeyFramePtr) (kind : EdgeKind), kind ≠ EdgeKind.spanningTree →
      (l.map (fun N => GraphSegment.mk kind K N)).filter
        (fun s => decide (s.kind = EdgeKind.spanningTree)) = [] := by
    intro l kind hk
    rw [List.filter_eq_nil_iff]
    intro s hs
    obtain ⟨N, _, rfl⟩ := List.mem_map.1 hs
    simp [hk]
  rw [List.filter_append, List.filter_append, h1 _ EdgeKind.covisibility (by decide),
    h1 _ EdgeKind.loop (by decide)]
  cases (mp.keyFrame K).GetParent <;> simp

theorem DrawKeyFrames.tree_count (mp : Map α) (vpKFs : List KeyFramePtr) :
    ((DrawKeyFrames.segments mp vpKFs).filter
        (fun s => decide (s.kind = EdgeKind.spanningTree))).length
      = (vpKFs.filter (fun K => (mp.keyFrame K).GetParent.isSome)).length := by
  unfold DrawKeyFrames.segments
  induction vpKFs with
  | nil => rfl
  | cons K Ks ih =>
    rw [List.flatMap_cons, List.filter_append, List.length_append, ih,
      DrawKeyFrames.segmentsOf_eq_expected, expectedSegmentsOf_tree_count, List.filter_cons]
    cases (mp.keyFrame K).GetParent.isSome <;> simp [Nat.add_comm]

/-! ### Claims on the segments of the graph pass -/

/-- C18. For every keyframe list with 3x1 camera centres, the graph pass of
DrawKeyFrames emits, for each keyframe `K` in list order, exactly: a segment to
each weight-100 covisible neighbour `N` with `id(N) ≥ id(K)`, in neighbour
order; then a segment to the parent of `K` exactly when `K` has one, without
identifier filter; then a segment to each loop partner `L` with
`id(L) ≥ id(K)`. A segment is two `glVertex3f` calls: the coordinates (x, y, z)
of the camera centre of `K`, then those of the camera centre of the other
keyframe. Every vertex emitted by the graph pass is the camera centre of one
of the two keyframes of one of these segments, the number of spanning-tree
segments is the number of listed keyframes that have a parent, and with the
graph flag false the graph pass emits nothing. -/
theorem graph_pass_segments [Field α] (d : MapDrawer α) (bDrawKF : Bool)
    (hcentre : ∀ k, (d.mpMap.keyFrame k).GetCameraCenter.IsPoint) :
    DrawKeyFrames d bDrawKF true =
        DrawKeyFrames d bDrawKF false
          ++ [glLineWidth d.mGraphLineWidth, glColor4f 0 1 0 0.6, glBegin GL_LINES]
          ++ (d.mpMap.GetAllKeyFrames.flatMap (expectedSegmentsOf d.mpMap)).flatMap
              (fun s =>
                [glVertex3f ((d.mpMap.keyFrame s.kf).GetCameraCenter.data 0 0)
                    ((d.mpMap.keyFrame s.kf).GetCameraCenter.data 1 0)
                    ((d.mpMap.keyFrame s.kf).GetCameraCenter.data 2 0),
                 glVertex3f ((d.mpMap.keyFrame s.other).GetCameraCenter.data 0 0)
                    ((d.mpMap.keyFrame s.other).GetCameraCenter.data 1 0)
                    ((d.mpMap.keyFrame s.other).GetCameraCenter.data 2 0)])
          ++ [glEnd]
    ∧ DrawKeyFrames.segments d.mpMap d.mpMap.GetAllKeyFrames
        = d.mpMap.GetAllKeyFrames.flatMap (expectedSegmentsOf d.mpMap)
    ∧ (∀ v ∈ vertices (DrawKeyFrames d false true),
        ∃ s ∈ d.mpMap.GetAllKeyFrames.flatMap (expectedSegmentsOf d.mpMap),
          ∃ k : KeyFramePtr, (k = s.kf ∨ k = s.other)
            ∧ v = ((d.mpMap.keyFrame k).GetCameraCenter.data 0 0,
                   (d.mpMap.keyFrame k).GetCameraCenter.data 1 0,
                   (d.mpMap.keyFrame k).GetCameraCenter.data 2 0))
    ∧ ((DrawKeyFrames.segments d.mpMap d.mpMap.GetAllKeyFrames).filter
          (fun s => decide (s.kind = EdgeKind.spanningTree))).length
        = (d.mpMap.GetAllKeyFrames.filter
            (fun K => (d.mpMap.keyFrame K).GetParent.isSome)).length
    ∧ DrawKeyFrames d false false = [] := by
  have hseg : DrawKeyFrames.segments d.mpMap d.mpMap.GetAllKeyFrames
      = d.mpMap.GetAllKeyFrames.flatMap (expectedSegmentsOf d.mpMap) := by
    unfold DrawKeyFrames.segments
    apply List.flatMap_congr
    intro K _
    exact DrawKeyFrames.segmentsOf_eq_expected d.mpMap K
  have hsv := DrawKeyFrames.segmentVertices_of_isPoint d.mpMap hcentre
  have hsplit : DrawKeyFrames d bDrawKF true =
      DrawKeyFrames d bDrawKF false
        ++ [glLineWidth d.mGraphLineWidth, glColor4f 0 1 0 0.6, glBegin GL_LINES]
        ++ (DrawKeyFrames.segments d.mpMap d.mpMap.GetAllKeyFrames).flatMap
            (DrawKeyFrames.segmentVertices d.mpMap)
        ++ [glEnd] := by
    cases bDrawKF <;> simp [DrawKeyFrames]
  refine ⟨?_, hseg, ?_, DrawKeyFrames.tree_count d.mpMap d.mpMap.GetAllKeyFrames, ?_⟩
  · rw [hsplit, hseg, hsv]
  · intro v hv
    rw [DrawKeyFrames.graph_only, hseg, hsv, vertices_append, vertices_append,
      vertices_flatMap] at hv
    simp only [vertices, List.nil_append, List.append_nil, List.mem_flatMap, List.mem_cons,
      List.mem_singleton, List.not_mem_nil, or_false] at hv
    obtain ⟨s, hmem, hs⟩ := hv
    refine ⟨s, List.mem_flatMap.2 hmem, ?_⟩
    rcases hs with rfl | rfl
    · exact ⟨s.kf, Or.inl rfl, rfl⟩
    · exact ⟨s.other, Or.inr rfl, rfl⟩
  · simp [DrawKeyFrames]

/-- Witness of C18 on `graphMap` (keyframes listed as 20, 30, 10 with
identifiers 2, 3, 1 and camera centre of keyframe k at (k, 2k, 3k)): keyframe 20
gives the covisibility segment to 30 and the spanning-tree segment to 10,
keyframe 30 the spanning-tree segment to 20, keyframe 10 the covisibility
segment to 20 and the loop segment to 30. -/
theorem graph_pass_segments_witness :
    DrawKeyFrames Example.graphDrawer false true
      = [glLineWidth 1, glColor4f 0 1 0 0.6, glBegin GL_LINES,
         glVertex3f 20 40 60, glVertex3f 30 60 90,
         glVertex3f 20 40 60, glVertex3f 10 20 30,
         glVertex3f 30 60 90, glVertex3f 20 40 60,
         glVertex3f 10 20 30, glVertex3f 20 40 60,
         glVertex3f 10 20 30, glVertex3f 30 60 90,
         glEnd] := by
  rw [(graph_pass_segments Example.graphDrawer false (fun _ => ⟨rfl, rfl⟩)).1]
  simp [DrawKeyFrames, expectedSegmentsOf, Example.graphDrawer, Example.graphMap,
    MapDrawer.new, Example.pos]
  norm_num

end Theorems

end ORB_SLAM2
